import Mathlib

/-!
# Verification of the obligations reuse-index subsystem

Shallow embedding of the reuse-index cache of `scripts/sc/_obligations_reuse_index.py`,
the miss-diagnostics of `scripts/sc/_obligations_reuse_explain.py`, and the fingerprint
builders of `scripts/sc/_obligations_extract_helpers.py` /
`scripts/sc/_obligations_code_fingerprint.py`.

Modelling conventions (stated once, used throughout):

* JSON values are the inductive `JVal`; Python dicts are association lists in
  insertion order (parsed JSON never carries duplicate keys).
* The filesystem is an association list from paths to `FileData`.  A path is the
  list of its components relative to `logs_root` (the code only ever touches files
  under `logs_root`, which is assumed to exist).  `FileData.content = none` models a
  file whose text fails JSON parsing; a path absent from the list is a missing file.
* UTC datetimes are modelled by integers (seconds); `datetime.now()` is the `now`
  field of an explicit `Env`, `isoformat()` stores the integer as a JSON number and
  `_parse_iso_utc` maps anything that is not such a stored timestamp to the epoch
  `0`, exactly as the Python parser maps unparsable text to `datetime(1970, 1, 1)`.
* The advisory lock protocol (exclusive-create, retry, staleness reclaim) is a
  real-time OS interaction; its *outcome* is modelled by `Env.lock_ok` (whether an
  acquisition inside the call succeeds before the timeout) and `Env.lock_wait_ms`
  (the recorded wait).  Python's `try/except` wrappers around file I/O never fire in
  the model because the modelled filesystem operations are total.
* `validate_verdict_schema` is the injected collaborator of the reuse layer (the
  spec's `Validator` capability); it is a parameter `validateV : JVal → Bool × JVal`
  returning (valid, normalized) — the error list it also returns is unused here.
* SHA-256 is an opaque digest: functions that hash take a parameter
  `sha : String → String`.  All determinism statements are independent of it.
-/

/-- A JSON value (`json.loads` result).  Python dicts are association lists in
insertion order; a value parsed from JSON has no duplicate keys. -/
inductive JVal where
  | jnull : JVal
  | jbool : Bool → JVal
  | jnum : Int → JVal
  | jstr : String → JVal
  | jarr : List JVal → JVal
  | jobj : List (String × JVal) → JVal
deriving Repr

/-- Python `x if isinstance(x, dict) else {}`. -/
def jAsObj (v : JVal) : JVal :=
  match v with
  | JVal.jobj kvs => JVal.jobj kvs
  | _ => JVal.jobj []

/-- First-match lookup in an association list (Python `dict.get`; keys of a dict
are unique, so first-match agrees with dict lookup). -/
def lookupKV (kvs : List (String × JVal)) (k : String) : Option JVal :=
  match kvs with
  | [] => none
  | kv :: rest => if kv.1 = k then some kv.2 else lookupKV rest k

/-- Python `obj.get(k)`: `None` when `obj` is not a dict or lacks the key. -/
def jGet (v : JVal) (k : String) : Option JVal :=
  match v with
  | JVal.jobj kvs => lookupKV kvs k
  | _ => none

/-- Python `d[k] = v`: replace the value at the first occurrence of `k`, keeping
its position, else append `(k, v)` (dict insertion-order semantics). -/
def dictSet (kvs : List (String × JVal)) (k : String) (v : JVal) : List (String × JVal) :=
  match kvs with
  | [] => [(k, v)]
  | kv :: rest => if kv.1 = k then (k, v) :: rest else kv :: dictSet rest k v

/-- Python `d.pop(k, None)` restricted to its effect on the dict: remove the
entry keyed `k`. -/
def dictPop (kvs : List (String × JVal)) (k : String) : List (String × JVal) :=
  match kvs with
  | [] => []
  | kv :: rest => if kv.1 = k then rest else kv :: dictPop rest k

/-- Python `str.strip()` (Unicode whitespace at both ends), on the character list. -/
def pyStripData (l : List Char) : List Char :=
  ((l.dropWhile Char.isWhitespace).reverse.dropWhile Char.isWhitespace).reverse

/-- Python `str.strip()`. -/
def pyStrip (s : String) : String :=
  String.mk (pyStripData s.data)

/-- Python `str.lower()`. -/
def pyLower (s : String) : String :=
  String.mk (s.data.map Char.toLower)

/-- Python `str.startswith(pre)`. -/
def pyStartsWith (s pre : String) : Bool :=
  pre.data.isPrefixOf s.data

/-- JSON string quoting for `json.dumps(..., ensure_ascii=False)`.  Quote,
backslash and the common control characters are escaped; other control
characters (which never occur on any path exercised here) pass through. -/
def jsonQuoteData (l : List Char) : List Char :=
  l.foldr (fun c acc =>
    if c = Char.ofNat 34 then Char.ofNat 92 :: Char.ofNat 34 :: acc
    else if c = Char.ofNat 92 then Char.ofNat 92 :: Char.ofNat 92 :: acc
    else if c = Char.ofNat 10 then Char.ofNat 92 :: Char.ofNat 110 :: acc
    else if c = Char.ofNat 9 then Char.ofNat 92 :: Char.ofNat 116 :: acc
    else if c = Char.ofNat 13 then Char.ofNat 92 :: Char.ofNat 114 :: acc
    else c :: acc) []

/-- A JSON string literal: `"` + escaped body + `"`. -/
def jsonQuote (s : String) : String :=
  String.mk (Char.ofNat 34 :: jsonQuoteData s.data ++ [Char.ofNat 34])

/-- Key order used by `json.dumps(..., sort_keys=True)`: lexicographic string
order on the keys of the already-rendered pairs (rendering first, then sorting
by key, is equivalent to Python's sort-then-render and keeps the recursion
structural). -/
def dumpKeyLe (a b : String × String) : Prop :=
  a.1 ≤ b.1

instance : DecidableRel dumpKeyLe := fun a b => inferInstanceAs (Decidable (a.1 ≤ b.1))

instance : IsTotal (String × String) dumpKeyLe := ⟨fun a b => le_total a.1 b.1⟩

instance : IsTrans (String × String) dumpKeyLe := ⟨fun _ _ _ h1 h2 => le_trans h1 h2⟩

mutual
/-- Python `json.dumps(v, ensure_ascii=False, sort_keys=True, separators=(",", ":"))`:
canonical serialization with sorted keys and no extraneous whitespace. -/
def jsonDumps : JVal → String
  | JVal.jnull => "null"
  | JVal.jbool b => if b then "true" else "false"
  | JVal.jnum n => toString n
  | JVal.jstr s => jsonQuote s
  | JVal.jarr xs => "[" ++ String.intercalate "," (jsonDumpsList xs) ++ "]"
  | JVal.jobj kvs =>
      "\x7b" ++
        String.intercalate ","
          ((List.insertionSort dumpKeyLe (jsonDumpsPairs kvs)).map
            (fun kv => jsonQuote kv.1 ++ ":" ++ kv.2)) ++
        "\x7d"
/-- Render every element of a JSON array. -/
def jsonDumpsList : List JVal → List String
  | [] => []
  | v :: rest => jsonDumps v :: jsonDumpsList rest
/-- Render every value of a JSON object, keeping the key. -/
def jsonDumpsPairs : List (String × JVal) → List (String × String)
  | [] => []
  | (k, v) :: rest => (k, jsonDumps v) :: jsonDumpsPairs rest
end

/-- Python `str(x or "")` where `x` is the result of a `dict.get` (`None` when
missing).  Falsy values (`None`, `False`, `0`, `""`, `[]`, `{}`) give `""`;
scalars follow Python's `str`; non-empty containers (dead code on every path of
the reuse layer, which only reads string-typed fields) are approximated by their
canonical JSON rendering. -/
def pyStrOr (v : Option JVal) : String :=
  match v with
  | none => ""
  | some JVal.jnull => ""
  | some (JVal.jbool b) => if b then "True" else ""
  | some (JVal.jnum n) => if n = 0 then "" else toString n
  | some (JVal.jstr s) => s
  | some (JVal.jarr xs) => if xs.isEmpty then "" else jsonDumps (JVal.jarr xs)
  | some (JVal.jobj kvs) => if kvs.isEmpty then "" else jsonDumps (JVal.jobj kvs)

/-- `str(obj.get(k) or "").strip()`, the pervasive field-reading idiom. -/
def jFieldStr (v : JVal) (k : String) : String :=
  pyStrip (pyStrOr (jGet v k))

/-! ## Filesystem and environment model -/

/-- A path under `logs_root`, as its list of components. -/
abbrev FsPath := List String

/-- A file on disk: its modification time and its parsed JSON content
(`none` when `json.loads` on its text raises). -/
structure FileData where
  mtime : Int
  content : Option JVal
deriving Repr

/-- The tree under `logs_root`: an association list from paths to files. -/
abbrev FS := List (FsPath × FileData)

/-- Read a file (first match; real filesystems have unique paths). -/
def fsRead (fs : FS) (p : FsPath) : Option FileData :=
  match fs with
  | [] => none
  | e :: rest => if e.1 = p then some e.2 else fsRead rest p

/-- `Path.exists()`. -/
def fsExists (fs : FS) (p : FsPath) : Bool :=
  (fsRead fs p).isSome

/-- Write (create or overwrite) a file.  The source writes to a pid-suffixed
temp file and renames it over the destination; in this sequential model the
atomic rename is the single visible mutation. -/
def fsWrite (fs : FS) (p : FsPath) (d : FileData) : FS :=
  match fs with
  | [] => [(p, d)]
  | e :: rest => if e.1 = p then (p, d) :: rest else e :: fsWrite rest p d

/-- The ambient effects of one call: the current UTC time and the outcome of
lock acquisition (`_acquire_reuse_lock`'s retry/staleness loop is real-time OS
interaction; only its result is visible to the logic verified here). -/
structure Env where
  now : Int
  lock_ok : Bool
  lock_wait_ms : Int

/-! ## Reuse-index constants, key and paths
(`scripts/sc/_obligations_reuse_index.py`) -/

def REUSE_INDEX_RETENTION_DAYS : Int := 14

def REUSE_INDEX_MAX_ENTRIES_PER_TASK : Nat := 20

def REUSE_INDEX_MAX_TOTAL_ENTRIES : Nat := 800

/-- Seconds per day, for the retention cutoff `now - timedelta(days=...)`. -/
def SECONDS_PER_DAY : Int := 86400

/-- `_reuse_index_path`: `logs_root / "sc-llm-obligations-reuse-index.json"`. -/
def reuseIndexPath : FsPath := ["sc-llm-obligations-reuse-index.json"]

/-- `_make_reuse_key`: join the four stripped components with `"|"`. -/
def _make_reuse_key (task_id input_hash prompt_version security_profile : String) : String :=
  String.intercalate "|"
    [pyStrip task_id, pyStrip input_hash, pyStrip prompt_version, pyStrip security_profile]

/-- `build_reuse_lookup_key` (public alias of `_make_reuse_key`). -/
def build_reuse_lookup_key (task_id input_hash prompt_version security_profile : String) : String :=
  _make_reuse_key task_id input_hash prompt_version security_profile

/-- `_to_index_path`: a stored path is the path relative to `logs_root`, with
`/` separators (all stored results live under `logs_root` in this model). -/
def _to_index_path (p : FsPath) : String :=
  String.intercalate "/" p

/-- Split a character list at `/`. -/
def splitSlashData : List Char → List Char → List (List Char)
  | [], acc => [acc.reverse]
  | c :: rest, acc =>
      if c = Char.ofNat 47 then acc.reverse :: splitSlashData rest []
      else splitSlashData rest (c :: acc)

/-- `_from_index_path` (and the identical `_to_path` of the explain module):
`Path(str(text).strip())` interpreted relative to `logs_root`. -/
def _from_index_path (s : String) : FsPath :=
  (splitSlashData (pyStrip s).data []).map String.mk

/-! ## Stats records -/

/-- The observability record returned by every reuse operation. -/
structure ReuseStats where
  reuse_index_hit : Bool
  reuse_index_fallback_scan : Bool
  reuse_index_pruned_count : Int
  reuse_index_lock_wait_ms : Int
deriving Repr, DecidableEq

/-- `_new_reuse_stats`: all-false / all-zero. -/
def _new_reuse_stats : ReuseStats :=
  ⟨false, false, 0, 0⟩

/-- `merge_reuse_stats(*stats_list)`: OR the booleans, sum the integers. -/
def merge_reuse_stats (stats_list : List ReuseStats) : ReuseStats :=
  stats_list.foldl
    (fun out s =>
      ⟨out.reuse_index_hit || s.reuse_index_hit,
       out.reuse_index_fallback_scan || s.reuse_index_fallback_scan,
       out.reuse_index_pruned_count + s.reuse_index_pruned_count,
       out.reuse_index_lock_wait_ms + s.reuse_index_lock_wait_ms⟩)
    _new_reuse_stats

/-! ## Index store -/

/-- The in-memory index object `{"version": 1, "entries": {...}}`.  `_load_reuse_index`
rebuilds it with a literal `version: 1` whatever the file held, so the version is
a plain field that loading always sets to `1`. -/
structure IndexObj where
  version : Int
  entries : List (String × JVal)
deriving Repr

/-- `_load_reuse_index` on its non-raising inputs: missing file, unparsable
JSON, or a dict whose `entries` field is not a dict all yield the empty index.
The source guards only `json.loads` with its `try`: a file whose JSON parses to
a non-dict value makes the unguarded `obj.get("entries")` raise, a path made
explicit by `_load_reuse_index_checked` below; this totalized loader agrees
with the checked loader whenever the latter succeeds (`load_checked_agrees`),
and its callers in this development use it under hypotheses that keep the index
file missing, unparsable, or dict-shaped. -/
def _load_reuse_index (fs : FS) : IndexObj :=
  match fsRead fs reuseIndexPath with
  | none => ⟨1, []⟩
  | some fd =>
    match fd.content with
    | none => ⟨1, []⟩
    | some obj =>
      match jGet obj "entries" with
      | some (JVal.jobj kvs) => ⟨1, kvs⟩
      | _ => ⟨1, []⟩

/-- `_load_reuse_index` with its error path explicit.  Only `json.loads` sits
inside the source's `try`; when the index file's JSON parses to a non-dict
value, the unguarded `obj.get("entries")` raises `AttributeError`, modeled
here as `none`.  Every other input returns the loaded index `some`-wrapped. -/
def _load_reuse_index_checked (fs : FS) : Option IndexObj :=
  match fsRead fs reuseIndexPath with
  | none => some ⟨1, []⟩
  | some fd =>
    match fd.content with
    | none => some ⟨1, []⟩
    | some (JVal.jobj kvs) =>
      match lookupKV kvs "entries" with
      | some (JVal.jobj es) => some ⟨1, es⟩
      | _ => some ⟨1, []⟩
    | some _ => none

/-- `_write_reuse_index`: atomically replace the index file with
`{"version": 1, "entries": entries}`. -/
def _write_reuse_index (env : Env) (fs : FS) (entries : List (String × JVal)) : FS :=
  fsWrite fs reuseIndexPath
    ⟨env.now, some (JVal.jobj [("version", JVal.jnum 1), ("entries", JVal.jobj entries)])⟩

/-- `_parse_iso_utc`: a stored timestamp parses back to itself; anything else
(missing field, non-timestamp value) falls back to the epoch. -/
def _parse_iso_utc (v : Option JVal) : Int :=
  match v with
  | some (JVal.jnum n) => n
  | _ => 0

/-! ## Pruning -/

/-- One row of `_prune_reuse_index_entries`'s `kept_rows`:
`(task_id, updated_at, str(key or "").strip(), item)`. -/
structure PruneRow where
  task_id : String
  updated_at : Int
  key : String
  item : JVal
deriving Repr

/-- The retention cutoff `now - timedelta(days=max(0, REUSE_INDEX_RETENTION_DAYS))`. -/
def pruneCutoff (env : Env) : Int :=
  env.now - SECONDS_PER_DAY * (max 0 REUSE_INDEX_RETENTION_DAYS)

/-- The per-entry filter of the pruning loop: drop entries with an empty task id,
entries older than the retention cutoff, and entries whose referenced summary or
verdict file no longer exists. -/
def rowOf (env : Env) (fs : FS) (kv : String × JVal) : Option PruneRow :=
  let item := jAsObj kv.2
  let task_id := jFieldStr item "task_id"
  if task_id = "" then none
  else
    let updated_at := _parse_iso_utc (jGet item "updated_at")
    if updated_at < pruneCutoff env then none
    else
      let summary_path := _from_index_path (pyStrOr (jGet item "summary_path"))
      let verdict_path := _from_index_path (pyStrOr (jGet item "verdict_path"))
      if fsExists fs summary_path && fsExists fs verdict_path then
        some ⟨task_id, updated_at, pyStrip kv.1, item⟩
      else none

/-- Sort order of `kept_rows.sort(key=lambda row: row[1], reverse=True)`:
descending `updated_at`. -/
def rowGe (a b : PruneRow) : Prop :=
  b.updated_at ≤ a.updated_at

instance : DecidableRel rowGe := fun a b => inferInstanceAs (Decidable (b.updated_at ≤ a.updated_at))

instance : IsTotal PruneRow rowGe := ⟨fun a b => le_total b.updated_at a.updated_at⟩

instance : IsTrans PruneRow rowGe := ⟨fun _ _ _ h1 h2 => le_trans h2 h1⟩

/-- The per-task capping loop: keep a row only while its task id has been kept
fewer than `REUSE_INDEX_MAX_ENTRIES_PER_TASK` times. -/
def capPerTask (cnt : String → Nat) : List PruneRow → List PruneRow
  | [] => []
  | r :: rest =>
    if REUSE_INDEX_MAX_ENTRIES_PER_TASK ≤ cnt r.task_id then capPerTask cnt rest
    else r :: capPerTask (fun t => if t = r.task_id then cnt t + 1 else cnt t) rest

/-- The final dict rebuild: `out[key] = item` for each surviving row with a
non-empty key. -/
def outOf (rows : List PruneRow) : List (String × JVal) :=
  rows.foldl (fun acc r => if r.key = "" then acc else dictSet acc r.key r.item) []

/-- `_prune_reuse_index_entries`: filter (age, missing files, empty task id),
sort by recency, cap per task, cap in total, rebuild the dict, and report how
many entries were dropped. -/
def _prune_reuse_index_entries (env : Env) (fs : FS) (entries : List (String × JVal)) :
    List (String × JVal) × Nat :=
  let kept_rows := entries.filterMap (rowOf env fs)
  let sorted_rows := List.insertionSort rowGe kept_rows
  let limited_rows := capPerTask (fun _ => 0) sorted_rows
  let limited_rows := limited_rows.take (max 1 REUSE_INDEX_MAX_TOTAL_ENTRIES)
  let out := outOf limited_rows
  (out, entries.length - out.length)

/-! ## Remember (write path) -/

/-- The index entry `remember_reusable_ok_result_with_stats` stores. -/
def rememberEntry (env : Env) (task_id input_hash prompt_version security_profile : String)
    (summary_path verdict_path : FsPath) : JVal :=
  JVal.jobj
    [("task_id", JVal.jstr (pyStrip task_id)),
     ("input_hash", JVal.jstr (pyStrip input_hash)),
     ("prompt_version", JVal.jstr (pyStrip prompt_version)),
     ("security_profile", JVal.jstr (pyStrip security_profile)),
     ("summary_path", JVal.jstr (_to_index_path summary_path)),
     ("verdict_path", JVal.jstr (_to_index_path verdict_path)),
     ("updated_at", JVal.jnum env.now)]

/-- `remember_reusable_ok_result_with_stats`: acquire the lock (recording the
wait; on failure return without touching the disk), re-load the on-disk state,
upsert the entry for the lookup key, prune, save.  Returns the stats record and
the filesystem after the call. -/
def remember_reusable_ok_result_with_stats (env : Env) (fs : FS)
    (task_id input_hash prompt_version security_profile : String)
    (summary_path verdict_path : FsPath) : ReuseStats × FS :=
  let stats : ReuseStats := { _new_reuse_stats with reuse_index_lock_wait_ms := env.lock_wait_ms }
  if !env.lock_ok then (stats, fs)
  else
    let key := _make_reuse_key task_id input_hash prompt_version security_profile
    let entries := (_load_reuse_index fs).entries
    let entry := rememberEntry env task_id input_hash prompt_version security_profile
      summary_path verdict_path
    let entries2 := dictSet entries key entry
    let pruned := _prune_reuse_index_entries env fs entries2
    ({ stats with reuse_index_pruned_count := (pruned.2 : Int) },
     _write_reuse_index env fs pruned.1)

/-! ## Find (read path) -/

/-- Lines 322–330 of the source: re-read and parse the summary and verdict files
of an index entry; if either fails to parse, both fall back to `{}`. -/
def read_json_pair (fs : FS) (sp vp : FsPath) : JVal × JVal :=
  match (fsRead fs sp).bind FileData.content, (fsRead fs vp).bind FileData.content with
  | some s, some v => (s, v)
  | _, _ => (JVal.jobj [], JVal.jobj [])

/-- The direct-index validation (lines 320–335): the entry's verdict must not
live in the caller's own output directory, both referenced files must exist,
the summary must report status `ok` with the expected input hash, and the
verdict must pass the injected schema validator. -/
def direct_index_hit (validateV : JVal → Bool × JVal) (fs : FS) (input_hash : String)
    (current_out_dir : FsPath) (indexed : JVal) : Option (FsPath × JVal × JVal) :=
  let summary_path := _from_index_path (pyStrOr (jGet indexed "summary_path"))
  let verdict_path := _from_index_path (pyStrOr (jGet indexed "verdict_path"))
  if verdict_path.dropLast ≠ current_out_dir ∧ fsExists fs summary_path ∧ fsExists fs verdict_path then
    let sv := read_json_pair fs summary_path verdict_path
    if pyLower (jFieldStr sv.1 "status") = "ok" ∧ jFieldStr sv.1 "input_hash" = pyStrip input_hash then
      let vn := validateV (jAsObj sv.2)
      if vn.1 then some (verdict_path, sv.1, vn.2) else none
    else none
  else none

/-- `Path.name` of a directory given as a component list (`""` for the root,
whose real name never carries the task prefix). -/
def dirName (p : FsPath) : String :=
  (p.getLast?).getD ""

/-- `logs_root.rglob("summary.json")`: every file whose name is `summary.json`,
in filesystem iteration order. -/
def scan_candidates (fs : FS) : FS :=
  fs.filter (fun e => e.1.getLast? = some "summary.json")

/-- One iteration of the fallback scan (lines 354–378): keep the current best
unless this candidate passes every check and is strictly more recently
modified. -/
def scan_step (validateV : JVal → Bool × JVal) (fs : FS) (task_pref input_hash : String)
    (current_out_dir : FsPath) (best : Option (Int × FsPath × FsPath × JVal × JVal))
    (cand : FsPath × FileData) : Option (Int × FsPath × FsPath × JVal × JVal) :=
  let summary_path := cand.1
  let parent := summary_path.dropLast
  if !(pyStartsWith (dirName parent) task_pref) || parent = current_out_dir then best
  else
    match (fsRead fs summary_path).bind FileData.content with
    | none => best
    | some summary =>
      if pyLower (jFieldStr summary "status") ≠ "ok" then best
      else if jFieldStr summary "input_hash" ≠ pyStrip input_hash then best
      else
        let verdict_path := parent ++ ["verdict.json"]
        match fsRead fs verdict_path with
        | none => best
        | some vfd =>
          match vfd.content with
          | none => best
          | some verdict =>
            let vn := validateV (jAsObj verdict)
            if !vn.1 then best
            else
              if (match best with
                  | none => true
                  | some b => decide (b.1 < vfd.mtime)) then
                some (vfd.mtime, summary_path, verdict_path, summary, vn.2)
              else best

/-- The whole fallback scan: fold `scan_step` over every `summary.json`. -/
def scan_best (validateV : JVal → Bool × JVal) (fs : FS) (task_pref input_hash : String)
    (current_out_dir : FsPath) : Option (Int × FsPath × FsPath × JVal × JVal) :=
  (scan_candidates fs).foldl (scan_step validateV fs task_pref input_hash current_out_dir) none

/-- Steps 4–5 of the resolver: mark the fallback scan in the stats, scan, and on
a match write it back into the index (merging the write stats) before returning
it. -/
def scan_and_remember (validateV : JVal → Bool × JVal) (env : Env) (fs : FS)
    (stats : ReuseStats) (task_id input_hash prompt_version security_profile task_pref : String)
    (current_out_dir : FsPath) : Option (FsPath × JVal × JVal) × ReuseStats × FS :=
  let stats := { stats with reuse_index_fallback_scan := true }
  match scan_best validateV fs task_pref input_hash current_out_dir with
  | none => (none, stats, fs)
  | some best =>
    let ws := remember_reusable_ok_result_with_stats env fs
      task_id input_hash prompt_version security_profile best.2.1 best.2.2.1
    (some (best.2.2.1, best.2.2.2.1, best.2.2.2.2), merge_reuse_stats [stats, ws.1], ws.2)

/-- Step-3 failure handling plus fallback (lines 336–394): on an entry that
failed re-validation, remove it under the lock, prune, save; then (and likewise
when the lock was not obtained, or directly when the key was absent) fall back
to the directory scan via `scan_and_remember`. -/
def find_stale_entry (validateV : JVal → Bool × JVal) (env : Env) (fs : FS)
    (stats : ReuseStats) (task_id input_hash prompt_version security_profile task_pref key : String)
    (current_out_dir : FsPath) : Option (FsPath × JVal × JVal) × ReuseStats × FS :=
  let stats := { stats with
    reuse_index_lock_wait_ms := stats.reuse_index_lock_wait_ms + env.lock_wait_ms }
  if env.lock_ok then
    let latest := (_load_reuse_index fs).entries
    let pruned := _prune_reuse_index_entries env fs (dictPop latest key)
    let stats := { stats with
      reuse_index_pruned_count := stats.reuse_index_pruned_count + (pruned.2 : Int) }
    let fs2 := _write_reuse_index env fs pruned.1
    scan_and_remember validateV env fs2 stats
      task_id input_hash prompt_version security_profile task_pref current_out_dir
  else
    scan_and_remember validateV env fs stats
      task_id input_hash prompt_version security_profile task_pref current_out_dir

/-- Dispatch on the outcome of the direct-index validation (lines 320–351). -/
def find_validated_case (validateV : JVal → Bool × JVal) (env : Env) (fs : FS)
    (stats : ReuseStats) (task_id input_hash prompt_version security_profile task_pref key : String)
    (current_out_dir : FsPath) :
    Option (FsPath × JVal × JVal) → Option (FsPath × JVal × JVal) × ReuseStats × FS
  | some hit => (some hit, { stats with reuse_index_hit := true }, fs)
  | none =>
    find_stale_entry validateV env fs stats
      task_id input_hash prompt_version security_profile task_pref key current_out_dir

/-- Dispatch on the indexed entry found for the lookup key (line 320–321): only
a dict-shaped entry enters the validation/invalidation path; anything else goes
straight to the fallback scan. -/
def find_entry_case (validateV : JVal → Bool × JVal) (env : Env) (fs : FS)
    (stats : ReuseStats) (task_id input_hash prompt_version security_profile task_pref key : String)
    (current_out_dir : FsPath) :
    Option JVal → Option (FsPath × JVal × JVal) × ReuseStats × FS
  | some (JVal.jobj ikvs) =>
    find_validated_case validateV env fs stats
      task_id input_hash prompt_version security_profile task_pref key current_out_dir
      (direct_index_hit validateV fs input_hash current_out_dir (JVal.jobj ikvs))
  | _ =>
    scan_and_remember validateV env fs stats
      task_id input_hash prompt_version security_profile task_pref current_out_dir

/-- `find_reusable_ok_result` (the resolver; `find_reusable_ok_result_with_stats`
is the same computation with the stats returned alongside, as here): look the
key up in the index; on a validated hit return it; on an entry that fails
re-validation, remove it under the lock, prune, save, and fall through; then
fall back to the directory scan, remembering any scan hit.  Returns the
optional hit `(verdict_path, summary, normalized_verdict)`, the stats, and the
filesystem after the call. -/
def find_reusable_ok_result (validateV : JVal → Bool × JVal) (env : Env) (fs : FS)
    (task_id input_hash prompt_version security_profile : String)
    (current_out_dir : FsPath) : Option (FsPath × JVal × JVal) × ReuseStats × FS :=
  let key := _make_reuse_key task_id input_hash prompt_version security_profile
  let task_pref := "sc-llm-obligations-task-" ++ pyStrip task_id
  find_entry_case validateV env fs _new_reuse_stats
    task_id input_hash prompt_version security_profile task_pref key current_out_dir
    (lookupKV (_load_reuse_index fs).entries key)

/-! ## Explain / diagnostics (`scripts/sc/_obligations_reuse_explain.py`) -/

/-- `_read_runtime_fp`: the stripped `runtime_code_fingerprint` field of a
summary file, `""` on any failure. -/
def _read_runtime_fp (fs : FS) (summary_path : FsPath) : String :=
  match (fsRead fs summary_path).bind FileData.content with
  | none => ""
  | some obj => jFieldStr obj "runtime_code_fingerprint"

/-- One sampled candidate entry of `explain_reuse_miss`. -/
structure SampleRec where
  key : String
  task_id : String
  input_hash : String
  prompt_version : String
  security_profile : String
  runtime_code_fingerprint : String
deriving Repr, DecidableEq

/-- The result of `explain_reuse_miss` (the echoed `target` sub-dict is just the
stripped inputs and is omitted). -/
structure ExplainOut where
  index_exists : Bool
  index_entries : Nat
  mismatch_dimensions : List String
  same_task : Nat
  same_task_input_hash : Nat
  same_task_prompt_version : Nat
  same_task_security_profile : Nat
  same_task_runtime_code_fingerprint : Nat
  samples : List SampleRec
deriving Repr

/-- Accumulator of the entry loop of `explain_reuse_miss`. -/
structure ExplainAcc where
  samples : List SampleRec
  same_task : Nat
  same_hash : Nat
  same_prompt : Nat
  same_sec : Nat
  same_fp : Nat
deriving Repr

/-- One iteration of the entry loop: sample the entry (bounded count, before the
task-id filter), then bump the same-task counters. -/
def explain_step (fs : FS) (cap : Nat) (ttid th tp ts tfp : String)
    (acc : ExplainAcc) (kv : String × JVal) : ExplainAcc :=
  let item := jAsObj kv.2
  let tid := jFieldStr item "task_id"
  let ih := jFieldStr item "input_hash"
  let pv := jFieldStr item "prompt_version"
  let sp := jFieldStr item "security_profile"
  let sfp := _read_runtime_fp fs (_from_index_path (pyStrOr (jGet item "summary_path")))
  let samples :=
    if acc.samples.length < cap then acc.samples ++ [⟨pyStrip kv.1, tid, ih, pv, sp, sfp⟩]
    else acc.samples
  if tid ≠ ttid then { acc with samples := samples }
  else
    { samples := samples
      same_task := acc.same_task + 1
      same_hash := acc.same_hash + (if ih = th then 1 else 0)
      same_prompt := acc.same_prompt + (if pv = tp then 1 else 0)
      same_sec := acc.same_sec + (if sp = ts then 1 else 0)
      same_fp := acc.same_fp + (if tfp ≠ "" ∧ sfp ≠ "" ∧ sfp = tfp then 1 else 0) }

/-- The mismatch-dimension list: `["task_id"]` alone when no same-task entry
exists; otherwise the failing dimensions in the fixed order `input_hash`,
`prompt_version`, `security_profile`, `runtime_code_fingerprint` (the last one
only when the target has a fingerprint and at least one sampled candidate
carries a non-empty one). -/
def explain_mismatches (tfp : String) (acc : ExplainAcc) : List String :=
  if acc.same_task = 0 then ["task_id"]
  else
    (if acc.same_hash = 0 then ["input_hash"] else []) ++
    (if acc.same_prompt = 0 then ["prompt_version"] else []) ++
    (if acc.same_sec = 0 then ["security_profile"] else []) ++
    (if tfp ≠ "" ∧ (acc.samples.any (fun s => s.runtime_code_fingerprint ≠ "")) ∧ acc.same_fp = 0
     then ["runtime_code_fingerprint"] else [])

/-- The body of `explain_reuse_miss` once the index file has been read and
parsed (targets already stripped). -/
def explain_parsed (fs : FS) (ttid th tp ts tfp : String) (sample_limit : Int)
    (obj : JVal) : ExplainOut :=
  let entries := match jGet obj "entries" with
    | some (JVal.jobj kvs) => kvs
    | _ => []
  if entries.isEmpty then ⟨true, entries.length, ["task_id"], 0, 0, 0, 0, 0, []⟩
  else
    let cap := (max 1 sample_limit).toNat
    let acc := entries.foldl (explain_step fs cap ttid th tp ts tfp) ⟨[], 0, 0, 0, 0, 0⟩
    ⟨true, entries.length, explain_mismatches tfp acc,
     acc.same_task, acc.same_hash, acc.same_prompt, acc.same_sec, acc.same_fp,
     acc.samples⟩

/-- Dispatch on whether the index file's text parses as JSON. -/
def explain_content_case (fs : FS) (ttid th tp ts tfp : String) (sample_limit : Int) :
    Option JVal → ExplainOut
  | none => ⟨true, 0, ["index_parse_error"], 0, 0, 0, 0, 0, []⟩
  | some obj => explain_parsed fs ttid th tp ts tfp sample_limit obj

/-- Dispatch on whether the index file exists. -/
def explain_read_case (fs : FS) (ttid th tp ts tfp : String) (sample_limit : Int) :
    Option FileData → ExplainOut
  | none => ⟨false, 0, ["task_id"], 0, 0, 0, 0, 0, []⟩
  | some fd => explain_content_case fs ttid th tp ts tfp sample_limit fd.content

/-- `explain_reuse_miss`: diagnose why a lookup missed.  Missing index file →
`["task_id"]`; unparsable index → `["index_parse_error"]`; otherwise partition
the entries by task id and name the dimensions with no same-task match.
(When the index file parses to a non-dict, the Python code would raise an
`AttributeError` on `.get`; theorems below only quantify over dict-shaped
content, where the model and the source agree.) -/
def explain_reuse_miss (fs : FS)
    (task_id input_hash prompt_version security_profile runtime_code_fingerprint : String)
    (sample_limit : Int) : ExplainOut :=
  explain_read_case fs (pyStrip task_id) (pyStrip input_hash) (pyStrip prompt_version)
    (pyStrip security_profile) (pyStrip runtime_code_fingerprint) sample_limit
    (fsRead fs reuseIndexPath)

/-! ## Fingerprint builders
(`scripts/sc/_obligations_extract_helpers.py`, `scripts/sc/_obligations_code_fingerprint.py`) -/

/-- `build_input_hash(payload)`: the digest of the canonical JSON serialization
(sorted keys, `(",", ":")` separators) of the payload.  Pure: no dependence on
process identity or wall-clock time. -/
def build_input_hash (sha : String → String) (payload : JVal) : String :=
  sha (jsonDumps payload)

/-- `function_map[key]` (total on real dicts; `""` default keeps the model total). -/
def lookupStr (kvs : List (String × String)) (k : String) : String :=
  match kvs with
  | [] => ""
  | kv :: rest => if kv.1 = k then kv.2 else lookupStr rest k

/-- `build_runtime_code_fingerprint(function_map)`: each function is represented
by the text `_safe_source_text` extracts for it (its source, or the stable
`module:qualname` fallback); each text is hashed, the hash map serialized with
sorted keys, and the serialization hashed again.  Returns `(digest, hashes)`. -/
def build_runtime_code_fingerprint (sha : String → String)
    (function_map : List (String × String)) : String × List (String × String) :=
  let ks := List.insertionSort (· ≤ ·) (function_map.map Prod.fst)
  let hashes := ks.map (fun k => (k, sha (lookupStr function_map k)))
  let payload := jsonDumps (JVal.jobj (hashes.map (fun kv => (kv.1, JVal.jstr kv.2))))
  (sha payload, hashes)

/-! ## Basic lemmas about stripping and keys -/

theorem dropWhile_head_not {α : Type} (p : α → Bool) :
    ∀ (l : List α) (c : α) (rest : List α), l.dropWhile p = c :: rest → p c = false
  | [], c, rest, h => by simp [List.dropWhile] at h
  | a :: l, c, rest, h => by
    by_cases hp : p a
    · exact dropWhile_head_not p l c rest (by simpa [List.dropWhile_cons, hp] using h)
    · rw [List.dropWhile_cons, if_neg hp] at h
      obtain ⟨rfl, rfl⟩ := List.cons.injEq .. ▸ h
      simpa using hp

theorem dropWhile_eq_self_of_head {α : Type} (p : α → Bool) (l : List α)
    (h : ∀ c ∈ l.head?, p c = false) : l.dropWhile p = l := by
  cases l with
  | nil => rfl
  | cons a t => simp [List.dropWhile_cons, h a (by simp)]

/-- No whitespace at either end of a character list. -/
def noOuterSpace (l : List Char) : Prop :=
  (∀ c ∈ l.head?, c.isWhitespace = false) ∧ (∀ c ∈ l.getLast?, c.isWhitespace = false)

theorem pyStripData_of_noOuter (l : List Char) (h : noOuterSpace l) : pyStripData l = l := by
  unfold pyStripData
  rw [dropWhile_eq_self_of_head _ l h.1]
  rw [dropWhile_eq_self_of_head _ l.reverse
    (fun c hc => h.2 c (by rwa [List.head?_reverse] at hc))]
  exact l.reverse_reverse

theorem noOuter_pyStripData (l : List Char) : noOuterSpace (pyStripData l) := by
  unfold pyStripData noOuterSpace
  set d := l.dropWhile Char.isWhitespace with hd
  set Y := d.reverse.dropWhile Char.isWhitespace with hy
  constructor
  · intro c hc
    rw [List.head?_reverse] at hc
    cases hY : Y with
    | nil => rw [hY] at hc; simp at hc
    | cons c0 rest =>
      have hsplit : d.reverse.takeWhile Char.isWhitespace ++ Y = d.reverse :=
        List.takeWhile_append_dropWhile _ _
      have hlast : Y.getLast? = d.reverse.getLast? := by
        rw [← hsplit, List.getLast?_append_of_ne_nil _ (by rw [hY]; simp)]
      rw [hlast, List.getLast?_reverse] at hc
      cases hD : d with
      | nil => rw [hD] at hc; simp at hc
      | cons c1 rest1 =>
        rw [hD] at hc
        simp only [List.head?_cons, Option.mem_def, Option.some.injEq] at hc
        subst hc
        exact dropWhile_head_not _ l c1 rest1 (hd.symm ▸ hD)
  · intro c hc
    rw [List.getLast?_reverse] at hc
    cases hY : Y with
    | nil => rw [hY] at hc; simp at hc
    | cons c0 rest =>
      rw [hY] at hc
      simp only [List.head?_cons, Option.mem_def, Option.some.injEq] at hc
      subst hc
      exact dropWhile_head_not _ d.reverse c0 rest (hy.symm ▸ hY)

theorem data_pyStrip (s : String) : (pyStrip s).data = pyStripData s.data := rfl

theorem pyStrip_idem (s : String) : pyStrip (pyStrip s) = pyStrip s := by
  show String.mk (pyStripData (pyStrip s).data) = pyStrip s
  rw [data_pyStrip, pyStripData_of_noOuter _ (noOuter_pyStripData s.data)]
  rfl

theorem getLast?_cons_append_ne {α : Type} (c : α) (X : List α) (h : X ≠ []) :
    (c :: X).getLast? = X.getLast? :=
  List.getLast?_append_of_ne_nil [c] h

theorem make_reuse_key_data (a b c d : String) :
    (_make_reuse_key a b c d).data =
      (pyStrip a).data ++
        '|' :: ((pyStrip b).data ++ '|' :: ((pyStrip c).data ++ '|' :: (pyStrip d).data)) := by
  simp [_make_reuse_key, String.intercalate, String.intercalate.go, String.data_append]

theorem make_reuse_key_noOuter (a b c d : String) :
    noOuterSpace (_make_reuse_key a b c d).data := by
  rw [make_reuse_key_data]
  constructor
  · intro c0 hc0
    cases hA : (pyStrip a).data with
    | nil => rw [hA] at hc0; simp at hc0; subst hc0; decide
    | cons c1 t1 =>
      rw [hA, List.head?_append_of_ne_nil _ (by simp)] at hc0
      exact (noOuter_pyStripData a.data).1 c0 (by rw [data_pyStrip] at hA; rw [hA]; exact hc0)
  · intro c0 hc0
    rw [List.getLast?_append_of_ne_nil _ (by simp)] at hc0
    rw [getLast?_cons_append_ne _ _ (by simp)] at hc0
    rw [List.getLast?_append_of_ne_nil _ (by simp)] at hc0
    rw [getLast?_cons_append_ne _ _ (by simp)] at hc0
    rw [List.getLast?_append_of_ne_nil _ (by simp)] at hc0
    cases hD : (pyStrip d).data with
    | nil => rw [hD] at hc0; simp at hc0; subst hc0; decide
    | cons c1 t1 =>
      rw [hD, List.getLast?_cons_cons] at hc0
      exact (noOuter_pyStripData d.data).2 c0
        (by rw [data_pyStrip] at hD; rw [hD]; exact hc0)

theorem pyStrip_make_reuse_key (a b c d : String) :
    pyStrip (_make_reuse_key a b c d) = _make_reuse_key a b c d := by
  unfold pyStrip
  rw [pyStripData_of_noOuter _ (make_reuse_key_noOuter a b c d)]

theorem make_reuse_key_ne_empty (a b c d : String) : _make_reuse_key a b c d ≠ "" := by
  intro h
  have : (_make_reuse_key a b c d).data = [] := by rw [h]
  rw [make_reuse_key_data] at this
  simp at this

/-! ## Association-list (dict) lemmas -/

theorem lookup_dictSet_self (d : List (String × JVal)) (k : String) (v : JVal) :
    lookupKV (dictSet d k v) k = some v := by
  induction d with
  | nil => simp [dictSet, lookupKV]
  | cons kv rest ih =>
    by_cases h : kv.1 = k
    · simp [dictSet, h, lookupKV]
    · simp [dictSet, h, lookupKV, ih]

theorem lookup_dictSet_ne (d : List (String × JVal)) (k k' : String) (v : JVal)
    (h : k' ≠ k) : lookupKV (dictSet d k v) k' = lookupKV d k' := by
  induction d with
  | nil =>
    simp only [dictSet, lookupKV]
    rw [if_neg (fun hh : (k, v).1 = k' => h (hh.symm))]
  | cons kv rest ih =>
    rw [dictSet]
    by_cases hk : kv.1 = k
    · rw [if_pos hk, lookupKV, lookupKV,
        if_neg (fun hh : (k, v).1 = k' => h hh.symm),
        if_neg (fun hh : kv.1 = k' => h ((hk.symm.trans hh).symm))]
    · rw [if_neg hk, lookupKV, lookupKV]
      by_cases hk' : kv.1 = k'
      · rw [if_pos hk', if_pos hk']
      · rw [if_neg hk', if_neg hk', ih]

theorem lookupKV_mem (d : List (String × JVal)) (k : String) (v : JVal)
    (h : lookupKV d k = some v) : (k, v) ∈ d := by
  induction d with
  | nil => simp [lookupKV] at h
  | cons kv rest ih =>
    by_cases hk : kv.1 = k
    · rw [lookupKV, if_pos hk] at h
      obtain ⟨k1, v1⟩ := kv
      simp only at hk
      simp only [Option.some.injEq] at h
      subst hk
      subst h
      exact List.mem_cons_self _ _
    · rw [lookupKV, if_neg hk] at h
      exact List.mem_cons_of_mem _ (ih h)

theorem lookupKV_eq_none (d : List (String × JVal)) (k : String)
    (h : ∀ kv ∈ d, kv.1 ≠ k) : lookupKV d k = none := by
  induction d with
  | nil => rfl
  | cons kv rest ih =>
    rw [lookupKV, if_neg (h kv (by simp))]
    exact ih fun x hx => h x (List.mem_cons_of_mem _ hx)

theorem mem_dictSet (d : List (String × JVal)) (k : String) (v : JVal) (kv : String × JVal)
    (h : kv ∈ dictSet d k v) : kv = (k, v) ∨ kv ∈ d := by
  induction d with
  | nil => simpa [dictSet] using h
  | cons e rest ih =>
    by_cases he : e.1 = k
    · rw [dictSet, if_pos he] at h
      rcases List.mem_cons.mp h with h1 | h1
      · exact Or.inl h1
      · exact Or.inr (List.mem_cons_of_mem _ h1)
    · rw [dictSet, if_neg he] at h
      rcases List.mem_cons.mp h with h1 | h1
      · exact Or.inr (h1 ▸ List.mem_cons_self _ _)
      · rcases ih h1 with h2 | h2
        · exact Or.inl h2
        · exact Or.inr (List.mem_cons_of_mem _ h2)

theorem mem_dictSet_of_ne (d : List (String × JVal)) (k : String) (v : JVal)
    (kv : String × JVal) (hmem : kv ∈ d) (hne : kv.1 ≠ k) : kv ∈ dictSet d k v := by
  induction d with
  | nil => simp at hmem
  | cons e rest ih =>
    by_cases he : e.1 = k
    · rw [dictSet, if_pos he]
      rcases List.mem_cons.mp hmem with h1 | h1
      · exact absurd (h1 ▸ he) hne
      · exact List.mem_cons_of_mem _ h1
    · rw [dictSet, if_neg he]
      rcases List.mem_cons.mp hmem with h1 | h1
      · exact h1 ▸ List.mem_cons_self _ _
      · exact List.mem_cons_of_mem _ (ih h1)

theorem dictSet_length_le (d : List (String × JVal)) (k : String) (v : JVal) :
    (dictSet d k v).length ≤ d.length + 1 := by
  induction d with
  | nil => simp [dictSet]
  | cons e rest ih =>
    by_cases he : e.1 = k
    · simp [dictSet, he]
    · simp only [dictSet, if_neg he, List.length_cons]
      omega

theorem dictSet_filter_length (d : List (String × JVal)) (k : String) (v : JVal)
    (P : String × JVal → Bool) :
    ((dictSet d k v).filter P).length ≤
      (d.filter P).length + (if P (k, v) then 1 else 0) := by
  induction d with
  | nil => by_cases h : P (k, v) <;> simp [dictSet, h]
  | cons e rest ih =>
    by_cases he : e.1 = k
    · rw [dictSet, if_pos he]
      by_cases hP : P (k, v) <;> by_cases hQ : P e <;>
        simp [List.filter_cons, hP, hQ] <;> omega
    · rw [dictSet, if_neg he]
      by_cases hQ : P e <;> simp [List.filter_cons, hQ] <;> omega

theorem mem_dictPop (d : List (String × JVal)) (k : String) (kv : String × JVal)
    (h : kv ∈ dictPop d k) : kv ∈ d := by
  induction d with
  | nil => simpa [dictPop] using h
  | cons e rest ih =>
    by_cases he : e.1 = k
    · rw [dictPop, if_pos he] at h
      exact List.mem_cons_of_mem _ h
    · rw [dictPop, if_neg he] at h
      rcases List.mem_cons.mp h with h1 | h1
      · exact h1 ▸ List.mem_cons_self _ _
      · exact List.mem_cons_of_mem _ (ih h1)

theorem mem_dictPop_key_ne (d : List (String × JVal)) (k : String)
    (hnd : (d.map Prod.fst).Nodup) (kv : String × JVal) (h : kv ∈ dictPop d k) :
    kv ∈ d ∧ kv.1 ≠ k := by
  induction d with
  | nil => simpa [dictPop] using h
  | cons e rest ih =>
    rw [List.map_cons, List.nodup_cons] at hnd
    by_cases he : e.1 = k
    · rw [dictPop, if_pos he] at h
      refine ⟨List.mem_cons_of_mem _ h, ?_⟩
      intro hk
      exact hnd.1 (he ▸ hk ▸ List.mem_map_of_mem Prod.fst h)
    · rw [dictPop, if_neg he] at h
      rcases List.mem_cons.mp h with h1 | h1
      · exact ⟨h1 ▸ List.mem_cons_self _ _, h1 ▸ he⟩
      · obtain ⟨hm, hk⟩ := ih hnd.2 h1
        exact ⟨List.mem_cons_of_mem _ hm, hk⟩

theorem mem_dictSet_nodup (d : List (String × JVal)) (k : String) (v : JVal)
    (hnd : (d.map Prod.fst).Nodup) (kv : String × JVal) (h : kv ∈ dictSet d k v) :
    kv = (k, v) ∨ (kv ∈ d ∧ kv.1 ≠ k) := by
  induction d with
  | nil => simp [dictSet] at h; exact Or.inl h
  | cons e rest ih =>
    rw [List.map_cons, List.nodup_cons] at hnd
    by_cases he : e.1 = k
    · rw [dictSet, if_pos he] at h
      rcases List.mem_cons.mp h with h1 | h1
      · exact Or.inl h1
      · refine Or.inr ⟨List.mem_cons_of_mem _ h1, ?_⟩
        intro hk
        exact hnd.1 (he ▸ hk ▸ List.mem_map_of_mem Prod.fst h1)
    · rw [dictSet, if_neg he] at h
      rcases List.mem_cons.mp h with h1 | h1
      · exact Or.inr ⟨h1 ▸ List.mem_cons_self _ _, h1 ▸ he⟩
      · rcases ih hnd.2 h1 with h2 | h2
        · exact Or.inl h2
        · exact Or.inr ⟨List.mem_cons_of_mem _ h2.1, h2.2⟩

/-! ## Prune-machinery lemmas -/

theorem jGet_jAsObj (v : JVal) (k : String) : jGet (jAsObj v) k = jGet v k := by
  cases v <;> rfl

theorem jFieldStr_jAsObj (v : JVal) (k : String) : jFieldStr (jAsObj v) k = jFieldStr v k := by
  unfold jFieldStr
  rw [jGet_jAsObj]

/-- Inversion of the pruning filter. -/
theorem rowOf_eq_some_iff (env : Env) (fs : FS) (kv : String × JVal) (r : PruneRow) :
    rowOf env fs kv = some r ↔
      r = ⟨jFieldStr kv.2 "task_id", _parse_iso_utc (jGet kv.2 "updated_at"),
            pyStrip kv.1, jAsObj kv.2⟩ ∧
      jFieldStr kv.2 "task_id" ≠ "" ∧
      ¬ _parse_iso_utc (jGet kv.2 "updated_at") < pruneCutoff env ∧
      fsExists fs (_from_index_path (pyStrOr (jGet kv.2 "summary_path"))) = true ∧
      fsExists fs (_from_index_path (pyStrOr (jGet kv.2 "verdict_path"))) = true := by
  unfold rowOf
  simp only [jFieldStr_jAsObj, jGet_jAsObj]
  split_ifs with h1 h2 h3
  · simp [h1]
  · simp [h2]
  · rw [Bool.and_eq_true] at h3
    constructor
    · rintro ⟨rfl⟩
      exact ⟨rfl, h1, h2, h3.1, h3.2⟩
    · rintro ⟨rfl, -⟩
      rfl
  · rw [Bool.and_eq_true] at h3
    constructor
    · rintro ⟨⟩
    · rintro ⟨rfl, -, -, h4, h5⟩
      exact absurd ⟨h4, h5⟩ h3

/-- `capPerTask` output is a sublist of its input. -/
theorem capPerTask_sublist (cnt : String → Nat) (l : List PruneRow) :
    List.Sublist (capPerTask cnt l) l := by
  induction l generalizing cnt with
  | nil => simp [capPerTask]
  | cons r rest ih =>
    rw [capPerTask]
    split_ifs with h
    · exact (ih cnt).trans (List.sublist_cons_self r rest)
    · exact List.Sublist.cons₂ r (ih _)

/-- A row is kept by the capping loop when its task occurs few enough times. -/
theorem mem_capPerTask (cnt : String → Nat) (l : List PruneRow) (r : PruneRow)
    (hmem : r ∈ l)
    (hcount : cnt r.task_id + (l.filter (fun x => x.task_id = r.task_id)).length ≤
      REUSE_INDEX_MAX_ENTRIES_PER_TASK) :
    r ∈ capPerTask cnt l := by
  induction l generalizing cnt with
  | nil => simp at hmem
  | cons a rest ih =>
    rw [capPerTask]
    rcases List.mem_cons.mp hmem with h1 | h1
    · subst h1
      rw [List.filter_cons_of_pos (by simp)] at hcount
      simp only [List.length_cons] at hcount
      rw [if_neg (by omega)]
      exact List.mem_cons_self _ _
    · by_cases ha : a.task_id = r.task_id
      · rw [List.filter_cons_of_pos (by simp [ha])] at hcount
        simp only [List.length_cons] at hcount
        split_ifs with h
        · exact ih cnt h1 (by omega)
        · refine List.mem_cons_of_mem _ (ih _ h1 ?_)
          rw [if_pos ha.symm]
          omega
      · rw [List.filter_cons_of_neg (by simp [ha])] at hcount
        split_ifs with h
        · exact ih cnt h1 hcount
        · refine List.mem_cons_of_mem _ (ih _ h1 ?_)
          rw [if_neg (fun hh : r.task_id = a.task_id => ha hh.symm)]
          exact hcount

/-- The capping loop keeps at most `cap - cnt t` rows of task `t`. -/
theorem capPerTask_filter_length (cnt : String → Nat) (l : List PruneRow) (t : String) :
    ((capPerTask cnt l).filter (fun x => x.task_id = t)).length ≤
      REUSE_INDEX_MAX_ENTRIES_PER_TASK - cnt t := by
  induction l generalizing cnt with
  | nil => simp [capPerTask]
  | cons a rest ih =>
    rw [capPerTask]
    split_ifs with h
    · exact ih cnt
    · by_cases ha : a.task_id = t
      · rw [List.filter_cons_of_pos (by simp [ha])]
        simp only [List.length_cons]
        have h2 := ih (fun s => if s = a.task_id then cnt s + 1 else cnt s)
        rw [if_pos ha.symm] at h2
        have hlt : cnt t < REUSE_INDEX_MAX_ENTRIES_PER_TASK := by
          rw [← ha]
          omega
        omega
      · rw [List.filter_cons_of_neg (by simp [ha])]
        have h2 := ih (fun s => if s = a.task_id then cnt s + 1 else cnt s)
        rwa [if_neg (fun hh : t = a.task_id => ha hh.symm)] at h2

/-- Once a sorted row is dropped by the capping loop, every same-task row that
is kept is at least as recent. -/
theorem capPerTask_drop_order (cnt : String → Nat) (l : List PruneRow)
    (hs : l.Sorted rowGe) (r : PruneRow) (hmem : r ∈ l) (hdrop : r ∉ capPerTask cnt l) :
    ∀ r' ∈ capPerTask cnt l, r'.task_id = r.task_id → rowGe r' r := by
  induction l generalizing cnt with
  | nil => simp at hmem
  | cons a rest ih =>
    rw [capPerTask] at hdrop ⊢
    split_ifs at hdrop ⊢ with h
    · rcases List.mem_cons.mp hmem with h1 | h1
      · subst h1
        intro r' hr' ht
        have hzero : ((capPerTask cnt rest).filter (fun x => x.task_id = r.task_id)).length = 0 := by
          have := capPerTask_filter_length cnt rest r.task_id
          omega
        rw [List.length_eq_zero, List.filter_eq_nil_iff] at hzero
        exact absurd (by simpa using ht) (hzero r' hr')
      · exact ih cnt hs.of_cons h1 hdrop
    · intro r' hr' ht
      have hne : r ≠ a := by
        intro hr
        exact hdrop (hr ▸ List.mem_cons_self _ _)
      have hmem' : r ∈ rest := by
        rcases List.mem_cons.mp hmem with h1 | h1
        · exact absurd h1 hne
        · exact h1
      rcases List.mem_cons.mp hr' with h2 | h2
      · subst h2
        exact List.rel_of_sorted_cons hs r hmem'
      · exact ih _ hs.of_cons hmem' (fun hc => hdrop (List.mem_cons_of_mem _ hc)) r' h2 ht

/-- The dict-rebuild step of `outOf`. -/
def outStep (acc : List (String × JVal)) (r : PruneRow) : List (String × JVal) :=
  if r.key = "" then acc else dictSet acc r.key r.item

theorem outOf_eq_foldl (rows : List PruneRow) : outOf rows = rows.foldl outStep [] := rfl

theorem lookup_foldl_outOf (rows : List PruneRow) (K : String) (it : JVal) (hK : K ≠ "")
    (huniq : ∀ r' ∈ rows, r'.key = K → r'.item = it) :
    ∀ acc : List (String × JVal),
      (lookupKV acc K = some it ∨ ∃ r ∈ rows, r.key = K) →
      lookupKV (rows.foldl outStep acc) K = some it := by
  induction rows with
  | nil =>
    intro acc hbase
    rcases hbase with h | ⟨r, hr, _⟩
    · exact h
    · simp at hr
  | cons a rest ih =>
    intro acc hbase
    rw [List.foldl_cons]
    by_cases hak : a.key = K
    · refine ih (fun r' hr' h => huniq r' (List.mem_cons_of_mem _ hr') h) _ (Or.inl ?_)
      rw [outStep, if_neg (hak ▸ hK), hak, huniq a (List.mem_cons_self _ _) hak]
      exact lookup_dictSet_self _ _ _
    · have hlook : lookupKV (outStep acc a) K = lookupKV acc K := by
        rw [outStep]
        split_ifs with h0
        · rfl
        · exact lookup_dictSet_ne _ _ _ _ (fun hh => hak hh.symm)
      refine ih (fun r' hr' h => huniq r' (List.mem_cons_of_mem _ hr') h) _ ?_
      rcases hbase with h | ⟨r, hr, hkey⟩
      · exact Or.inl (hlook ▸ h)
      · rcases List.mem_cons.mp hr with h1 | h1
        · exact absurd (h1 ▸ hkey) hak
        · exact Or.inr ⟨r, h1, hkey⟩

theorem mem_foldl_outOf (rows : List PruneRow) :
    ∀ (acc : List (String × JVal)) (kv : String × JVal),
      kv ∈ rows.foldl outStep acc →
      kv ∈ acc ∨ ∃ r ∈ rows, r.key = kv.1 ∧ r.item = kv.2 ∧ r.key ≠ "" := by
  induction rows with
  | nil =>
    intro acc kv h
    exact Or.inl h
  | cons a rest ih =>
    intro acc kv h
    rw [List.foldl_cons] at h
    rcases ih _ kv h with h1 | ⟨r, hr, hrest⟩
    · rw [outStep] at h1
      split_ifs at h1 with h0
      · exact Or.inl h1
      · rcases mem_dictSet _ _ _ _ h1 with h2 | h2
        · exact Or.inr ⟨a, List.mem_cons_self _ _, by rw [h2], by rw [h2], h0⟩
        · exact Or.inl h2
    · exact Or.inr ⟨r, List.mem_cons_of_mem _ hr, hrest⟩

theorem dictSet_map_fst (d : List (String × JVal)) (k : String) (v : JVal) :
    (dictSet d k v).map Prod.fst =
      if (lookupKV d k).isSome then d.map Prod.fst else d.map Prod.fst ++ [k] := by
  induction d with
  | nil => simp [dictSet, lookupKV]
  | cons e rest ih =>
    by_cases he : e.1 = k
    · simp [dictSet, he, lookupKV]
    · simp only [dictSet, if_neg he, List.map_cons, lookupKV, ih]
      split_ifs <;> simp

theorem lookupKV_none_forall (d : List (String × JVal)) (k : String)
    (h : lookupKV d k = none) : ∀ kv ∈ d, kv.1 ≠ k := by
  induction d with
  | nil =>
    intro kv hkv
    simp at hkv
  | cons e rest ih =>
    by_cases he : e.1 = k
    · rw [lookupKV, if_pos he] at h
      cases h
    · rw [lookupKV, if_neg he] at h
      intro kv hkv
      rcases List.mem_cons.mp hkv with h1 | h1
      · exact h1 ▸ he
      · exact ih h kv h1

theorem dictSet_nodup (d : List (String × JVal)) (k : String) (v : JVal)
    (h : (d.map Prod.fst).Nodup) : ((dictSet d k v).map Prod.fst).Nodup := by
  rw [dictSet_map_fst]
  split_ifs with h0
  · exact h
  · rw [List.nodup_append]
    refine ⟨h, List.nodup_singleton k, ?_⟩
    intro x hx hx2
    rw [List.mem_singleton] at hx2
    rcases List.mem_map.mp hx with ⟨kv, hkv, hfst⟩
    have hfst2 : kv.1 = k := by rw [hfst, hx2]
    have hnone : lookupKV d k = none := by
      cases hl : lookupKV d k
      · rfl
      · rw [hl] at h0
        simp at h0
    exact absurd hfst2 (lookupKV_none_forall d k hnone kv hkv)

theorem foldl_outOf_nodup (rows : List PruneRow) :
    ∀ acc : List (String × JVal), (acc.map Prod.fst).Nodup →
      ((rows.foldl outStep acc).map Prod.fst).Nodup := by
  induction rows with
  | nil => exact fun acc h => h
  | cons a rest ih =>
    intro acc h
    rw [List.foldl_cons]
    refine ih _ ?_
    rw [outStep]
    split_ifs with h0
    · exact h
    · exact dictSet_nodup _ _ _ h

theorem outOf_nodup (rows : List PruneRow) : ((outOf rows).map Prod.fst).Nodup :=
  foldl_outOf_nodup rows [] (by simp)

theorem foldl_outOf_filter_length (P : String × JVal → Bool) (rows : List PruneRow) :
    ∀ acc : List (String × JVal),
      ((rows.foldl outStep acc).filter P).length ≤
        (acc.filter P).length + (rows.filter (fun r => P (r.key, r.item))).length := by
  induction rows with
  | nil =>
    intro acc
    simp
  | cons a rest ih =>
    intro acc
    rw [List.foldl_cons]
    refine le_trans (ih _) ?_
    by_cases hP : P (a.key, a.item)
    · rw [List.filter_cons_of_pos (by simpa using hP)]
      have : ((outStep acc a).filter P).length ≤ (acc.filter P).length + 1 := by
        rw [outStep]
        split_ifs with h0
        · omega
        · have := dictSet_filter_length acc a.key a.item P
          rw [if_pos hP] at this
          exact this
      simp only [List.length_cons]
      omega
    · rw [List.filter_cons_of_neg (by simpa using hP)]
      have : ((outStep acc a).filter P).length ≤ (acc.filter P).length := by
        rw [outStep]
        split_ifs with h0
        · exact le_refl _
        · have := dictSet_filter_length acc a.key a.item P
          rw [if_neg hP] at this
          omega
      omega

theorem outOf_filter_length (P : String × JVal → Bool) (rows : List PruneRow) :
    ((outOf rows).filter P).length ≤ (rows.filter (fun r => P (r.key, r.item))).length := by
  have := foldl_outOf_filter_length P rows []
  simpa using this

theorem outOf_length_le (rows : List PruneRow) : (outOf rows).length ≤ rows.length := by
  have h1 := outOf_filter_length (fun _ => true) rows
  simpa using h1

theorem lookup_foldl_outOf_none (rows : List PruneRow) (K : String)
    (h : ∀ r ∈ rows, r.key ≠ K) :
    ∀ acc : List (String × JVal),
      lookupKV (rows.foldl outStep acc) K = lookupKV acc K := by
  induction rows with
  | nil => exact fun acc => rfl
  | cons a rest ih =>
    intro acc
    rw [List.foldl_cons, ih (fun r hr => h r (List.mem_cons_of_mem _ hr))]
    rw [outStep]
    split_ifs with h0
    · rfl
    · exact lookup_dictSet_ne _ _ _ _ (fun hh => h a (List.mem_cons_self _ _) hh.symm)

theorem lookup_foldl_outOf_isSome (rows : List PruneRow) (K : String) (hK : K ≠ "") :
    ∀ acc : List (String × JVal),
      ((lookupKV acc K).isSome ∨ ∃ r ∈ rows, r.key = K) →
      (lookupKV (rows.foldl outStep acc) K).isSome := by
  induction rows with
  | nil =>
    intro acc hbase
    rcases hbase with h | ⟨r, hr, _⟩
    · exact h
    · simp at hr
  | cons a rest ih =>
    intro acc hbase
    rw [List.foldl_cons]
    by_cases hak : a.key = K
    · refine ih _ (Or.inl ?_)
      rw [outStep, if_neg (hak ▸ hK), hak, lookup_dictSet_self]
      rfl
    · have hlook : lookupKV (outStep acc a) K = lookupKV acc K := by
        rw [outStep]
        split_ifs with h0
        · rfl
        · exact lookup_dictSet_ne _ _ _ _ (fun hh => hak hh.symm)
      refine ih _ ?_
      rcases hbase with h | ⟨r, hr, hkey⟩
      · exact Or.inl (hlook ▸ h)
      · rcases List.mem_cons.mp hr with h1 | h1
        · exact absurd (h1 ▸ hkey) hak
        · exact Or.inr ⟨r, h1, hkey⟩

/-! ## Prune: packaged properties -/

theorem prune_fst_eq (env : Env) (fs : FS) (es : List (String × JVal)) :
    (_prune_reuse_index_entries env fs es).1 =
      outOf ((capPerTask (fun _ => 0)
        (List.insertionSort rowGe (es.filterMap (rowOf env fs)))).take
          (max 1 REUSE_INDEX_MAX_TOTAL_ENTRIES)) := rfl

theorem filterMap_rowOf_filter_le (env : Env) (fs : FS) (es : List (String × JVal)) (t : String) :
    ((es.filterMap (rowOf env fs)).filter (fun r => r.task_id = t)).length ≤
      (es.filter (fun kv => jFieldStr kv.2 "task_id" = t)).length := by
  induction es with
  | nil => simp
  | cons kv rest ih =>
    rw [List.filterMap_cons]
    cases hrow : rowOf env fs kv with
    | none =>
      refine le_trans ih ?_
      rw [List.filter_cons]
      split_ifs <;> simp
    | some r =>
      have htask : r.task_id = jFieldStr kv.2 "task_id" := by
        rw [rowOf_eq_some_iff] at hrow
        rw [hrow.1]
      rw [List.filter_cons, List.filter_cons]
      by_cases ht : r.task_id = t
      · rw [if_pos (by simpa using ht), if_pos (by simp [← htask, ht])]
        simpa using ih
      · rw [if_neg (by simpa using ht), if_neg (by simp [← htask, ht])]
        exact ih

/-- The rows fed to the capping loop, in sorted order. -/
def sortedRowsOf (env : Env) (fs : FS) (es : List (String × JVal)) : List PruneRow :=
  List.insertionSort rowGe (es.filterMap (rowOf env fs))

/-- The rows surviving the per-task cap and the global cap. -/
def limitedRowsOf (env : Env) (fs : FS) (es : List (String × JVal)) : List PruneRow :=
  (capPerTask (fun _ => 0) (sortedRowsOf env fs es)).take (max 1 REUSE_INDEX_MAX_TOTAL_ENTRIES)

theorem prune_fst_eq_outOf (env : Env) (fs : FS) (es : List (String × JVal)) :
    (_prune_reuse_index_entries env fs es).1 = outOf (limitedRowsOf env fs es) := rfl

theorem mem_limited_mem_kept (env : Env) (fs : FS) (es : List (String × JVal)) (r : PruneRow)
    (h : r ∈ limitedRowsOf env fs es) : r ∈ es.filterMap (rowOf env fs) := by
  have h1 : r ∈ capPerTask (fun _ => 0) (sortedRowsOf env fs es) :=
    List.take_subset _ _ h
  have h2 : r ∈ sortedRowsOf env fs es :=
    (capPerTask_sublist _ _).subset h1
  exact (List.perm_insertionSort rowGe _).subset h2

/-- An entry with a lookup key no other entry collides with, whose row passes
every filter, and whose task id and the whole index are within the caps,
survives pruning with its item intact. -/
theorem prune_keeps (env : Env) (fs : FS) (es : List (String × JVal)) (k : String) (it : JVal)
    (r : PruneRow) (hk : pyStrip k = k) (hk0 : k ≠ "")
    (hrow : rowOf env fs (k, it) = some r)
    (hmem : (k, it) ∈ es)
    (huniq : ∀ kv ∈ es, pyStrip kv.1 = k → kv = (k, it))
    (hcount : (es.filter (fun kv => jFieldStr kv.2 "task_id" = r.task_id)).length ≤
      REUSE_INDEX_MAX_ENTRIES_PER_TASK)
    (hlen : es.length ≤ REUSE_INDEX_MAX_TOTAL_ENTRIES) :
    lookupKV (_prune_reuse_index_entries env fs es).1 k = some r.item := by
  have hkey : r.key = k := by
    rw [rowOf_eq_some_iff] at hrow
    rw [hrow.1]
    exact hk
  have hkept : r ∈ es.filterMap (rowOf env fs) :=
    List.mem_filterMap.mpr ⟨(k, it), hmem, hrow⟩
  have hsorted_mem : r ∈ sortedRowsOf env fs es :=
    (List.perm_insertionSort rowGe _).mem_iff.mpr hkept
  have hcount2 : ((sortedRowsOf env fs es).filter (fun x => x.task_id = r.task_id)).length ≤
      REUSE_INDEX_MAX_ENTRIES_PER_TASK := by
    have hp : ((sortedRowsOf env fs es).filter (fun x => x.task_id = r.task_id)).length =
        ((es.filterMap (rowOf env fs)).filter (fun x => x.task_id = r.task_id)).length :=
      ((List.perm_insertionSort rowGe _).filter _).length_eq
    rw [hp]
    exact le_trans (filterMap_rowOf_filter_le env fs es r.task_id) hcount
  have hcap : r ∈ capPerTask (fun _ => 0) (sortedRowsOf env fs es) :=
    mem_capPerTask _ _ _ hsorted_mem (by simpa using hcount2)
  have hlen2 : (capPerTask (fun _ => 0) (sortedRowsOf env fs es)).length ≤
      max 1 REUSE_INDEX_MAX_TOTAL_ENTRIES := by
    refine le_trans ((capPerTask_sublist _ _).length_le) ?_
    refine le_trans ?_ (le_max_right 1 _)
    calc (sortedRowsOf env fs es).length
        = (es.filterMap (rowOf env fs)).length := (List.perm_insertionSort rowGe _).length_eq
      _ ≤ es.length := List.length_filterMap_le _ _
      _ ≤ REUSE_INDEX_MAX_TOTAL_ENTRIES := hlen
  have hlim : r ∈ limitedRowsOf env fs es := by
    unfold limitedRowsOf
    rw [List.take_of_length_le hlen2]
    exact hcap
  have huniq2 : ∀ r' ∈ limitedRowsOf env fs es, r'.key = k → r'.item = r.item := by
    intro r' hr' hkey'
    have hkept' : r' ∈ es.filterMap (rowOf env fs) := mem_limited_mem_kept env fs es r' hr'
    rcases List.mem_filterMap.mp hkept' with ⟨kv', hmem', hrow'⟩
    have hstrip : pyStrip kv'.1 = k := by
      rw [rowOf_eq_some_iff] at hrow'
      have := congrArg PruneRow.key hrow'.1
      simp only at this
      rw [← hkey', this]
    have hkv' : kv' = (k, it) := huniq kv' hmem' hstrip
    rw [hkv'] at hrow'
    rw [hrow'] at hrow
    cases hrow
    rfl
  rw [prune_fst_eq_outOf]
  rw [outOf_eq_foldl]
  exact lookup_foldl_outOf _ k r.item hk0 huniq2 [] (Or.inr ⟨r, hlim, hkey⟩)

/-- Every pruned entry comes from an input entry whose row passed the filters. -/
theorem prune_mem_inv (env : Env) (fs : FS) (es : List (String × JVal)) (kv : String × JVal)
    (h : kv ∈ (_prune_reuse_index_entries env fs es).1) :
    ∃ kv0 ∈ es, ∃ r : PruneRow, rowOf env fs kv0 = some r ∧
      kv.1 = r.key ∧ kv.2 = r.item ∧ r.key ≠ "" ∧ r ∈ limitedRowsOf env fs es := by
  rw [prune_fst_eq_outOf, outOf_eq_foldl] at h
  rcases mem_foldl_outOf _ [] kv h with h1 | ⟨r, hr, hkey, hitem, hne⟩
  · simp at h1
  · rcases List.mem_filterMap.mp (mem_limited_mem_kept env fs es r hr) with ⟨kv0, hmem0, hrow0⟩
    exact ⟨kv0, hmem0, r, hrow0, hkey.symm, hitem.symm, hne, hr⟩

/-- Pruning never invents a key: a key absent (up to stripping) from the input
is absent from the output. -/
theorem prune_lookup_none (env : Env) (fs : FS) (es : List (String × JVal)) (K : String)
    (h : ∀ kv ∈ es, pyStrip kv.1 ≠ K) :
    lookupKV (_prune_reuse_index_entries env fs es).1 K = none := by
  rw [prune_fst_eq_outOf, outOf_eq_foldl]
  rw [lookup_foldl_outOf_none _ K ?hall []]
  · rfl
  case hall =>
    intro r hr
    rcases List.mem_filterMap.mp (mem_limited_mem_kept env fs es r hr) with ⟨kv0, hmem0, hrow0⟩
    rw [rowOf_eq_some_iff] at hrow0
    have := congrArg PruneRow.key hrow0.1
    simp only at this
    rw [this]
    exact h kv0 hmem0

/-- The pruned index holds at most the per-task cap of entries for any task id. -/
theorem prune_per_task_le (env : Env) (fs : FS) (es : List (String × JVal)) (t : String) :
    ((_prune_reuse_index_entries env fs es).1.filter
      (fun kv => jFieldStr kv.2 "task_id" = t)).length ≤
      REUSE_INDEX_MAX_ENTRIES_PER_TASK := by
  rw [prune_fst_eq_outOf, outOf_eq_foldl]
  have hstep := foldl_outOf_filter_length
    (fun kv => jFieldStr kv.2 "task_id" = t) (limitedRowsOf env fs es) []
  refine le_trans (by simpa using hstep) ?_
  have hcong : (limitedRowsOf env fs es).filter (fun r => jFieldStr r.item "task_id" = t) =
      (limitedRowsOf env fs es).filter (fun r => r.task_id = t) := by
    refine List.filter_congr ?_
    intro r hr
    rcases List.mem_filterMap.mp (mem_limited_mem_kept env fs es r hr) with ⟨kv0, hmem0, hrow0⟩
    rw [rowOf_eq_some_iff] at hrow0
    have hitem := congrArg PruneRow.item hrow0.1
    have htask := congrArg PruneRow.task_id hrow0.1
    simp only at hitem htask
    rw [hitem, htask, jFieldStr_jAsObj]
  rw [hcong]
  refine le_trans (List.Sublist.length_le ((List.take_sublist _ _).filter _)) ?_
  simpa using capPerTask_filter_length (fun _ => 0) (sortedRowsOf env fs es) t

/-- The pruned index holds at most the global cap of entries. -/
theorem prune_total_le (env : Env) (fs : FS) (es : List (String × JVal)) :
    (_prune_reuse_index_entries env fs es).1.length ≤ REUSE_INDEX_MAX_TOTAL_ENTRIES := by
  rw [prune_fst_eq_outOf]
  refine le_trans (outOf_length_le _) ?_
  refine le_trans (List.length_take_le _ _) ?_
  decide

/-- The pruned index has no duplicate keys. -/
theorem prune_nodup (env : Env) (fs : FS) (es : List (String × JVal)) :
    ((_prune_reuse_index_entries env fs es).1.map Prod.fst).Nodup := by
  rw [prune_fst_eq_outOf]
  exact outOf_nodup _

/-- When an eligible entry is dropped by pruning (its stripped key is absent
from the result) while the index has collision-free non-empty stripped keys,
every retained same-task entry is at least as recently updated. -/
theorem prune_retained_most_recent (env : Env) (fs : FS) (es : List (String × JVal))
    (hne : ∀ kv ∈ es, pyStrip kv.1 ≠ "")
    (kv0 : String × JVal) (r : PruneRow)
    (hmem : kv0 ∈ es) (hrow : rowOf env fs kv0 = some r)
    (hdropped : lookupKV (_prune_reuse_index_entries env fs es).1 (pyStrip kv0.1) = none) :
    ∀ kv ∈ (_prune_reuse_index_entries env fs es).1,
      jFieldStr kv.2 "task_id" = r.task_id →
      r.updated_at ≤ _parse_iso_utc (jGet kv.2 "updated_at") := by
  have hkey : r.key = pyStrip kv0.1 := by
    rw [rowOf_eq_some_iff] at hrow
    rw [hrow.1]
  have hsorted : (sortedRowsOf env fs es).Sorted rowGe :=
    List.sorted_insertionSort rowGe _
  have hmem_sorted : r ∈ sortedRowsOf env fs es :=
    (List.perm_insertionSort rowGe _).mem_iff.mpr (List.mem_filterMap.mpr ⟨kv0, hmem, hrow⟩)
  have hnotlim : r ∉ limitedRowsOf env fs es := by
    intro hlim
    have hsome : (lookupKV (_prune_reuse_index_entries env fs es).1 r.key).isSome := by
      rw [prune_fst_eq_outOf, outOf_eq_foldl]
      exact lookup_foldl_outOf_isSome _ r.key (hkey ▸ hne kv0 hmem) []
        (Or.inr ⟨r, hlim, rfl⟩)
    rw [hkey, hdropped] at hsome
    cases hsome
  intro kv hkv htask
  rcases prune_mem_inv env fs es kv hkv with ⟨kv1, hmem1, r', hrow1, hk1, hi1, hne1, hlim'⟩
  have hrowinv := (rowOf_eq_some_iff env fs kv1 r').mp hrow1
  have hitem' : r'.item = jAsObj kv1.2 := by rw [hrowinv.1]
  have htask' : r'.task_id = jFieldStr kv1.2 "task_id" := by rw [hrowinv.1]
  have hupd' : r'.updated_at = _parse_iso_utc (jGet kv1.2 "updated_at") := by rw [hrowinv.1]
  have htask_eq : r'.task_id = r.task_id := by
    rw [htask', ← jFieldStr_jAsObj, ← hitem', ← hi1]
    exact htask
  have hupd_goal : _parse_iso_utc (jGet kv.2 "updated_at") = r'.updated_at := by
    rw [hi1, hitem', jGet_jAsObj, hupd']
  rw [hupd_goal]
  by_cases hcap : r ∈ capPerTask (fun _ => 0) (sortedRowsOf env fs es)
  · -- dropped by the global truncation: retained rows sit in the kept prefix
    have hcap_sorted : (capPerTask (fun _ => 0) (sortedRowsOf env fs es)).Sorted rowGe :=
      hsorted.sublist (capPerTask_sublist _ _)
    have hsplit := List.take_append_drop (max 1 REUSE_INDEX_MAX_TOTAL_ENTRIES)
      (capPerTask (fun _ => 0) (sortedRowsOf env fs es))
    rw [← hsplit] at hcap_sorted
    have hcross := (List.pairwise_append.mp hcap_sorted).2.2
    have hrdrop : r ∈ (capPerTask (fun _ => 0) (sortedRowsOf env fs es)).drop
        (max 1 REUSE_INDEX_MAX_TOTAL_ENTRIES) := by
      rcases List.mem_append.mp (hsplit ▸ hcap) with h1 | h1
      · exact absurd h1 hnotlim
      · exact h1
    exact hcross r' hlim' r hrdrop
  · -- dropped by the per-task cap: retained same-task rows sit before it
    have hlim_cap : r' ∈ capPerTask (fun _ => 0) (sortedRowsOf env fs es) :=
      List.take_subset _ _ hlim'
    exact capPerTask_drop_order _ _ hsorted r hmem_sorted hcap r' hlim_cap htask_eq

/-! ## Filesystem lemmas -/

theorem fsRead_fsWrite_self (fs : FS) (p : FsPath) (d : FileData) :
    fsRead (fsWrite fs p d) p = some d := by
  induction fs with
  | nil => simp [fsWrite, fsRead]
  | cons e rest ih =>
    by_cases he : e.1 = p
    · simp [fsWrite, he, fsRead]
    · simp [fsWrite, he, fsRead, ih]

theorem fsRead_fsWrite_ne (fs : FS) (p q : FsPath) (d : FileData) (h : q ≠ p) :
    fsRead (fsWrite fs p d) q = fsRead fs q := by
  induction fs with
  | nil =>
    simp only [fsWrite, fsRead]
    split_ifs with h0
    · exact absurd h0.symm h
    · rfl
  | cons e rest ih =>
    by_cases he : e.1 = p
    · rw [fsWrite, if_pos he]
      simp only [fsRead]
      rw [if_neg (fun hh : (p, d).1 = q => h hh.symm),
        if_neg (fun hh : e.1 = q => h (hh ▸ he))]
    · rw [fsWrite, if_neg he]
      simp only [fsRead]
      by_cases hq : e.1 = q
      · rw [if_pos hq, if_pos hq]
      · rw [if_neg hq, if_neg hq, ih]

theorem fsExists_fsWrite_ne (fs : FS) (p q : FsPath) (d : FileData) (h : q ≠ p) :
    fsExists (fsWrite fs p d) q = fsExists fs q := by
  unfold fsExists
  rw [fsRead_fsWrite_ne fs p q d h]

/-- Loading right after a save yields exactly the saved entries. -/
theorem load_write_index (env : Env) (fs : FS) (entries : List (String × JVal)) :
    _load_reuse_index (_write_reuse_index env fs entries) = ⟨1, entries⟩ := by
  unfold _load_reuse_index _write_reuse_index
  rw [fsRead_fsWrite_self]
  rfl

/-! ## Scan lemmas -/

theorem scan_candidates_write_ne (fs : FS) (p : FsPath) (d : FileData)
    (h : p.getLast? ≠ some "summary.json") :
    scan_candidates (fsWrite fs p d) = scan_candidates fs := by
  induction fs with
  | nil =>
    unfold scan_candidates fsWrite
    rw [List.filter_cons_of_neg (by simpa using h)]
  | cons e rest ih =>
    unfold scan_candidates at ih ⊢
    by_cases he : e.1 = p
    · rw [fsWrite, if_pos he, List.filter_cons_of_neg (by simpa using h),
        List.filter_cons_of_neg (by simpa [he] using h)]
    · rw [fsWrite, if_neg he, List.filter_cons, List.filter_cons, ih]

theorem foldl_congr_on {α β : Type} (f g : β → α → β) (l : List α)
    (h : ∀ a ∈ l, ∀ b, f b a = g b a) : ∀ b, l.foldl f b = l.foldl g b := by
  induction l with
  | nil =>
    intro b
    rfl
  | cons a rest ih =>
    intro b
    rw [List.foldl_cons, List.foldl_cons, h a (List.mem_cons_self _ _) b]
    exact ih (fun x hx b2 => h x (List.mem_cons_of_mem _ hx) b2) _

theorem scan_step_write (validateV : JVal → Bool × JVal) (fs : FS) (p : FsPath) (d : FileData)
    (tp ih0 : String) (cur : FsPath) (best : Option (Int × FsPath × FsPath × JVal × JVal))
    (cand : FsPath × FileData) (hs : cand.1 ≠ p)
    (hv : cand.1.dropLast ++ ["verdict.json"] ≠ p) :
    scan_step validateV (fsWrite fs p d) tp ih0 cur best cand =
      scan_step validateV fs tp ih0 cur best cand := by
  simp only [scan_step]
  rw [fsRead_fsWrite_ne fs p _ d hs, fsRead_fsWrite_ne fs p _ d hv]

theorem scan_best_write (validateV : JVal → Bool × JVal) (fs : FS) (p : FsPath) (d : FileData)
    (tp ih0 : String) (cur : FsPath)
    (h1 : p.getLast? ≠ some "summary.json") (h2 : p.getLast? ≠ some "verdict.json") :
    scan_best validateV (fsWrite fs p d) tp ih0 cur = scan_best validateV fs tp ih0 cur := by
  unfold scan_best
  rw [scan_candidates_write_ne fs p d h1]
  refine foldl_congr_on _ _ _ ?_ none
  intro cand hcand best
  have hc : cand.1.getLast? = some "summary.json" := by
    unfold scan_candidates at hcand
    simpa using (List.mem_filter.mp hcand).2
  refine scan_step_write validateV fs p d tp ih0 cur best cand ?_ ?_
  · intro hh
    rw [hh] at hc
    exact h1 hc
  · intro hh
    have hlast : (cand.1.dropLast ++ ["verdict.json"]).getLast? = some "verdict.json" := by simp
    rw [hh] at hlast
    exact h2 hlast

/-- Everything the fallback scan guarantees about the candidate it returns. -/
def ScanHit (validateV : JVal → Bool × JVal) (fs : FS) (tp ih0 : String) (cur : FsPath)
    (b : Int × FsPath × FsPath × JVal × JVal) : Prop :=
  b.2.1.getLast? = some "summary.json" ∧
  b.2.2.1 = b.2.1.dropLast ++ ["verdict.json"] ∧
  b.2.1.dropLast ≠ cur ∧
  pyStartsWith (dirName b.2.1.dropLast) tp = true ∧
  (∃ fd : FileData, fsRead fs b.2.1 = some fd ∧ fd.content = some b.2.2.2.1) ∧
  pyLower (jFieldStr b.2.2.2.1 "status") = "ok" ∧
  jFieldStr b.2.2.2.1 "input_hash" = pyStrip ih0 ∧
  (∃ v : JVal, ∃ fdv : FileData, fsRead fs b.2.2.1 = some fdv ∧ fdv.content = some v ∧
    fdv.mtime = b.1 ∧ validateV (jAsObj v) = (true, b.2.2.2.2))

theorem scan_step_inv (validateV : JVal → Bool × JVal) (fs : FS) (tp ih0 : String)
    (cur : FsPath) (best : Option (Int × FsPath × FsPath × JVal × JVal))
    (cand : FsPath × FileData) (hcand : cand.1.getLast? = some "summary.json")
    (hbest : ∀ b, best = some b → ScanHit validateV fs tp ih0 cur b) :
    ∀ b, scan_step validateV fs tp ih0 cur best cand = some b →
      ScanHit validateV fs tp ih0 cur b := by
  intro b hb
  simp only [scan_step] at hb
  split_ifs at hb with h1
  · exact hbest b hb
  rw [Bool.or_eq_true, not_or] at h1
  obtain ⟨h1a, h1b⟩ := h1
  have h1a2 : pyStartsWith (dirName cand.1.dropLast) tp = true := by
    cases hpp : pyStartsWith (dirName cand.1.dropLast) tp
    · rw [hpp] at h1a
      exact absurd rfl h1a
    · rfl
  have h1c : cand.1.dropLast ≠ cur := by
    intro hh
    exact h1b (by simpa using hh)
  clear h1a
  split at hb
  · exact hbest b hb
  rename_i summary hsum
  split_ifs at hb with h2 h3
  · exact hbest b hb
  · exact hbest b hb
  rw [not_not] at h2 h3
  split at hb
  · exact hbest b hb
  rename_i vfd hvfd
  split at hb
  · exact hbest b hb
  rename_i verdict hvc
  split_ifs at hb with h4 h5
  · exact hbest b hb
  · have h4b : (validateV (jAsObj verdict)).1 = true := by
      cases hvv : (validateV (jAsObj verdict)).1
      · rw [hvv] at h4
        exact absurd rfl h4
      · rfl
    cases hb
    rcases Option.bind_eq_some.mp hsum with ⟨fd, hfd, hfdc⟩
    refine ⟨hcand, rfl, h1c, h1a2, ⟨fd, hfd, hfdc⟩, h2, h3,
      verdict, vfd, hvfd, hvc, rfl, ?_⟩
    have heta : validateV (jAsObj verdict) =
        ((validateV (jAsObj verdict)).1, (validateV (jAsObj verdict)).2) := rfl
    rw [heta, h4b]
  · exact hbest b hb

theorem scan_fold_inv (validateV : JVal → Bool × JVal) (fs : FS) (tp ih0 : String)
    (cur : FsPath) (l : FS) (hl : ∀ e ∈ l, e.1.getLast? = some "summary.json") :
    ∀ best, (∀ b, best = some b → ScanHit validateV fs tp ih0 cur b) →
      ∀ b, l.foldl (scan_step validateV fs tp ih0 cur) best = some b →
        ScanHit validateV fs tp ih0 cur b := by
  induction l with
  | nil => exact fun best hbest b hb => hbest b hb
  | cons e rest ih =>
    intro best hbest b hb
    rw [List.foldl_cons] at hb
    refine ih (fun x hx => hl x (List.mem_cons_of_mem _ hx)) _ ?_ b hb
    exact scan_step_inv validateV fs tp ih0 cur best e (hl e (List.mem_cons_self _ _)) hbest

/-- Inversion for a successful fallback scan. -/
theorem scan_best_some (validateV : JVal → Bool × JVal) (fs : FS) (tp ih0 : String)
    (cur : FsPath) (b : Int × FsPath × FsPath × JVal × JVal)
    (h : scan_best validateV fs tp ih0 cur = some b) :
    ScanHit validateV fs tp ih0 cur b := by
  unfold scan_best at h
  refine scan_fold_inv validateV fs tp ih0 cur (scan_candidates fs) ?_ none
    (fun x hx => by cases hx) b h
  intro e he
  unfold scan_candidates at he
  simpa using (List.mem_filter.mp he).2

/-! ## Direct-index-path and call-evaluation lemmas -/

theorem read_json_pair_eval (fs : FS) (sp vp : FsPath) (s v : JVal)
    (h1 : (fsRead fs sp).bind FileData.content = some s)
    (h2 : (fsRead fs vp).bind FileData.content = some v) :
    read_json_pair fs sp vp = (s, v) := by
  unfold read_json_pair
  rw [h1, h2]

/-- A direct-index hit never points into the caller's own output directory. -/
theorem direct_index_hit_parent_ne (validateV : JVal → Bool × JVal) (fs : FS) (ih0 : String)
    (cur : FsPath) (e : JVal) (vp : FsPath) (s n : JVal)
    (h : direct_index_hit validateV fs ih0 cur e = some (vp, s, n)) : vp.dropLast ≠ cur := by
  simp only [direct_index_hit] at h
  split_ifs at h with h1 h2 h3
  · obtain ⟨rfl, -, -⟩ := Prod.mk.injEq .. ▸ Option.some.injEq .. ▸ h
    exact h1.1
  all_goals cases h

/-- A summary that does not report success invalidates the direct-index path. -/
theorem direct_index_hit_none_of_status (validateV : JVal → Bool × JVal) (fs : FS)
    (ih0 : String) (cur : FsPath) (e : JVal)
    (h : pyLower (jFieldStr (read_json_pair fs
        (_from_index_path (pyStrOr (jGet e "summary_path")))
        (_from_index_path (pyStrOr (jGet e "verdict_path")))).1 "status") ≠ "ok") :
    direct_index_hit validateV fs ih0 cur e = none := by
  simp only [direct_index_hit]
  split_ifs with h1 h2 h3 <;> first | rfl | exact absurd h2.1 h

/-- Evaluation of the direct-index path on a validated entry. -/
theorem direct_index_hit_eval (validateV : JVal → Bool × JVal) (fs : FS) (ih0 : String)
    (cur : FsPath) (e : JVal) (sp vp : FsPath) (s v n : JVal) (fds fdv : FileData)
    (hsp : _from_index_path (pyStrOr (jGet e "summary_path")) = sp)
    (hvp : _from_index_path (pyStrOr (jGet e "verdict_path")) = vp)
    (hcur : vp.dropLast ≠ cur)
    (hs : fsRead fs sp = some fds) (hsc : fds.content = some s)
    (hv : fsRead fs vp = some fdv) (hvc : fdv.content = some v)
    (hok : pyLower (jFieldStr s "status") = "ok")
    (hhash : jFieldStr s "input_hash" = pyStrip ih0)
    (hval : validateV (jAsObj v) = (true, n)) :
    direct_index_hit validateV fs ih0 cur e = some (vp, s, n) := by
  have hpair : read_json_pair fs sp vp = (s, v) :=
    read_json_pair_eval fs sp vp s v (by rw [hs]; exact hsc) (by rw [hv]; exact hvc)
  simp only [direct_index_hit, hsp, hvp, hpair]
  rw [if_pos ⟨hcur, by rw [fsExists, hs]; rfl, by rw [fsExists, hv]; rfl⟩]
  rw [if_pos ⟨hok, hhash⟩, hval]
  rfl

/-- Evaluation of `remember_reusable_ok_result_with_stats` when the lock is
obtained. -/
theorem remember_eval (env : Env) (fs : FS)
    (task_id input_hash prompt_version security_profile : String) (sp vp : FsPath)
    (hlock : env.lock_ok = true) :
    remember_reusable_ok_result_with_stats env fs
        task_id input_hash prompt_version security_profile sp vp =
      ({ _new_reuse_stats with
          reuse_index_lock_wait_ms := env.lock_wait_ms,
          reuse_index_pruned_count :=
            ((_prune_reuse_index_entries env fs
              (dictSet (_load_reuse_index fs).entries
                (_make_reuse_key task_id input_hash prompt_version security_profile)
                (rememberEntry env task_id input_hash prompt_version security_profile sp vp))).2 : Int) },
       _write_reuse_index env fs
         (_prune_reuse_index_entries env fs
           (dictSet (_load_reuse_index fs).entries
             (_make_reuse_key task_id input_hash prompt_version security_profile)
             (rememberEntry env task_id input_hash prompt_version security_profile sp vp))).1) := by
  unfold remember_reusable_ok_result_with_stats
  rw [hlock]
  rfl

/-- Evaluation of `remember_reusable_ok_result_with_stats` when the lock is
not obtained: the filesystem is untouched. -/
theorem remember_no_lock (env : Env) (fs : FS)
    (task_id input_hash prompt_version security_profile : String) (sp vp : FsPath)
    (hlock : env.lock_ok = false) :
    remember_reusable_ok_result_with_stats env fs
        task_id input_hash prompt_version security_profile sp vp =
      ({ _new_reuse_stats with reuse_index_lock_wait_ms := env.lock_wait_ms }, fs) := by
  unfold remember_reusable_ok_result_with_stats
  rw [hlock]
  rfl

/-! ## Concrete scenario used by witnesses -/

/-- A validator that accepts every verdict unchanged (an admissible injected
`validate_verdict_schema` collaborator). -/
def wValidate : JVal → Bool × JVal := fun v => (true, v)

def wEnv : Env := ⟨1000, true, 7⟩

def wSummary : JVal := JVal.jobj [("status", JVal.jstr "ok"), ("input_hash", JVal.jstr "h1")]

def wVerdict : JVal := JVal.jobj [("verdict", JVal.jstr "pass")]

def wDir : String := "sc-llm-obligations-task-7-run1"

def wFs : FS :=
  [([wDir, "summary.json"], ⟨500, some wSummary⟩), ([wDir, "verdict.json"], ⟨501, some wVerdict⟩)]

/-- The filesystem after remembering the result of `wFs` under task 7. -/
def wFs2 : FS :=
  (remember_reusable_ok_result_with_stats wEnv wFs "7" "h1" "v1" "secure"
    [wDir, "summary.json"] [wDir, "verdict.json"]).2

/-! ## C8 -/

/-- The field-wise combination underlying `merge_reuse_stats`. -/
def statsJoin (out s : ReuseStats) : ReuseStats :=
  ⟨out.reuse_index_hit || s.reuse_index_hit,
   out.reuse_index_fallback_scan || s.reuse_index_fallback_scan,
   out.reuse_index_pruned_count + s.reuse_index_pruned_count,
   out.reuse_index_lock_wait_ms + s.reuse_index_lock_wait_ms⟩

theorem merge_foldl_general (l : List ReuseStats) :
    ∀ acc : ReuseStats, l.foldl statsJoin acc = statsJoin acc (merge_reuse_stats l) := by
  induction l with
  | nil =>
    intro acc
    show acc = statsJoin acc _new_reuse_stats
    cases acc
    simp [statsJoin, _new_reuse_stats]
  | cons a rest ih =>
    intro acc
    show (rest.foldl statsJoin (statsJoin acc a)) = _
    rw [ih (statsJoin acc a)]
    show _ = statsJoin acc (rest.foldl statsJoin (statsJoin _new_reuse_stats a))
    rw [ih (statsJoin _new_reuse_stats a)]
    cases acc
    cases a
    cases merge_reuse_stats rest
    simp [statsJoin, _new_reuse_stats, Bool.or_assoc, Int.add_assoc]

theorem merge_eq_foldl_join (l : List ReuseStats) :
    merge_reuse_stats l = l.foldl statsJoin _new_reuse_stats := rfl

/-- C8: merging stats records sums the integer fields (pruned count, lock-wait
milliseconds) and ORs the boolean fields (index hit, fallback scan); the
all-zero/false record is an identity on both sides; and merging is additive
over concatenation, so stats accumulated over several internal lock cycles and
over a whole run equal the field-wise sum of the per-step stats. -/
theorem c8_stats_additivity :
    (∀ l : List ReuseStats,
      merge_reuse_stats l =
        ⟨l.any (fun s => s.reuse_index_hit), l.any (fun s => s.reuse_index_fallback_scan),
         (l.map (fun s => s.reuse_index_pruned_count)).sum,
         (l.map (fun s => s.reuse_index_lock_wait_ms)).sum⟩) ∧
    (∀ s : ReuseStats,
      merge_reuse_stats [_new_reuse_stats, s] = s ∧
      merge_reuse_stats [s, _new_reuse_stats] = s ∧
      merge_reuse_stats [s] = s) ∧
    (∀ l1 l2 : List ReuseStats,
      merge_reuse_stats (l1 ++ l2) =
        statsJoin (merge_reuse_stats l1) (merge_reuse_stats l2)) := by
  have hclosed : ∀ l : List ReuseStats,
      merge_reuse_stats l =
        ⟨l.any (fun s => s.reuse_index_hit), l.any (fun s => s.reuse_index_fallback_scan),
         (l.map (fun s => s.reuse_index_pruned_count)).sum,
         (l.map (fun s => s.reuse_index_lock_wait_ms)).sum⟩ := by
    intro l
    induction l with
    | nil => rfl
    | cons a rest ih =>
      rw [merge_eq_foldl_join, List.foldl_cons, merge_foldl_general, ih]
      cases a
      simp [statsJoin, _new_reuse_stats]
  refine ⟨hclosed, ?_, ?_⟩
  · intro s
    refine ⟨?_, ?_, ?_⟩ <;> (rw [hclosed]; cases s; simp [_new_reuse_stats])
  · intro l1 l2
    rw [hclosed, hclosed, hclosed]
    simp [statsJoin, List.any_append]

/-! ## C6 -/

/-- Wherever the checked loader succeeds, the totalized loader computes the
same index: the two differ only on the raising inputs. -/
theorem load_checked_agrees (fs : FS) (r : IndexObj)
    (h : _load_reuse_index_checked fs = some r) : _load_reuse_index fs = r := by
  unfold _load_reuse_index_checked at h
  unfold _load_reuse_index
  cases hr : fsRead fs reuseIndexPath with
  | none =>
    rw [hr] at h
    have h2 : some (⟨1, []⟩ : IndexObj) = some r := h
    exact Option.some.inj h2
  | some fd =>
    obtain ⟨mt, cont⟩ := fd
    rw [hr] at h
    cases cont with
    | none =>
      have h2 : some (⟨1, []⟩ : IndexObj) = some r := h
      exact Option.some.inj h2
    | some obj =>
      cases obj with
      | jobj kvs =>
        have h3 : (match lookupKV kvs "entries" with
            | some (JVal.jobj es) => some (⟨1, es⟩ : IndexObj)
            | _ => some ⟨1, []⟩) = some r := h
        show (match lookupKV kvs "entries" with
          | some (JVal.jobj es) => ({ version := 1, entries := es } : IndexObj)
          | _ => { version := 1, entries := [] }) = r
        cases hl : lookupKV kvs "entries" with
        | none =>
          rw [hl] at h3
          exact Option.some.inj h3
        | some v =>
          rw [hl] at h3
          cases v with
          | jobj es => exact Option.some.inj h3
          | jnull => exact Option.some.inj h3
          | jbool b => exact Option.some.inj h3
          | jnum n => exact Option.some.inj h3
          | jstr t => exact Option.some.inj h3
          | jarr xs => exact Option.some.inj h3
      | jnull => exact Option.noConfusion (show (none : Option IndexObj) = some r from h)
      | jbool b => exact Option.noConfusion (show (none : Option IndexObj) = some r from h)
      | jnum n => exact Option.noConfusion (show (none : Option IndexObj) = some r from h)
      | jstr t => exact Option.noConfusion (show (none : Option IndexObj) = some r from h)
      | jarr xs => exact Option.noConfusion (show (none : Option IndexObj) = some r from h)

/-- C6 counterexample: an index file whose JSON parses successfully but to a
non-dict value (here the array `[]`).  None of the claim's degraded cases
applies — the file exists and its JSON parses — yet Load does not return the
empty index: the unguarded `obj.get("entries")` raises `AttributeError`,
modeled as `none`, so "the index Load operation never raises" is false of the
code. -/
theorem c6_counterexample :
    fsRead [(reuseIndexPath, ⟨0, some (JVal.jarr [])⟩)] reuseIndexPath =
      some ⟨0, some (JVal.jarr [])⟩ ∧
    _load_reuse_index_checked [(reuseIndexPath, ⟨0, some (JVal.jarr [])⟩)] = none :=
  ⟨rfl, rfl⟩

/-- C6 (amended): Load does not raise — and a corrupted index degrades every
lookup to a miss instead of blocking the caller — whenever the index file is
missing, its JSON fails to parse, or its JSON parses to a dict: the first two
cases and a dict with a non-dict `entries` field yield the empty index
`{version: 1, entries: {}}`, and every successful load has version 1.  When
the file's JSON parses to a non-dict value, however, Load raises
(`obj.get("entries")` runs outside the `try`), modeled as `none`. -/
theorem c6_load_resilience_amended (fs : FS) :
    (fsRead fs reuseIndexPath = none → _load_reuse_index_checked fs = some ⟨1, []⟩) ∧
    (∀ fd : FileData, fsRead fs reuseIndexPath = some fd → fd.content = none →
      _load_reuse_index_checked fs = some ⟨1, []⟩) ∧
    (∀ (fd : FileData) (kvs : List (String × JVal)), fsRead fs reuseIndexPath = some fd →
      fd.content = some (JVal.jobj kvs) →
      (∀ es, lookupKV kvs "entries" ≠ some (JVal.jobj es)) →
      _load_reuse_index_checked fs = some ⟨1, []⟩) ∧
    (∀ (fd : FileData) (obj : JVal), fsRead fs reuseIndexPath = some fd →
      fd.content = some obj → (∀ kvs, obj ≠ JVal.jobj kvs) →
      _load_reuse_index_checked fs = none) ∧
    (∀ r : IndexObj, _load_reuse_index_checked fs = some r → r.version = 1) := by
  refine ⟨?_, ?_, ?_, ?_, ?_⟩
  · intro h
    unfold _load_reuse_index_checked
    rw [h]
  · intro fd h hc
    unfold _load_reuse_index_checked
    rw [h]
    show (match fd.content with
      | none => some (⟨1, []⟩ : IndexObj)
      | some (JVal.jobj kvs) =>
        match lookupKV kvs "entries" with
        | some (JVal.jobj es) => some ⟨1, es⟩
        | _ => some ⟨1, []⟩
      | some _ => none) = some ⟨1, []⟩
    rw [hc]
  · intro fd kvs h hc hent
    unfold _load_reuse_index_checked
    rw [h]
    show (match fd.content with
      | none => some (⟨1, []⟩ : IndexObj)
      | some (JVal.jobj kvs2) =>
        match lookupKV kvs2 "entries" with
        | some (JVal.jobj es) => some ⟨1, es⟩
        | _ => some ⟨1, []⟩
      | some _ => none) = some ⟨1, []⟩
    rw [hc]
    show (match lookupKV kvs "entries" with
      | some (JVal.jobj es) => some (⟨1, es⟩ : IndexObj)
      | _ => some ⟨1, []⟩) = some ⟨1, []⟩
    cases hl : lookupKV kvs "entries" with
    | none => rfl
    | some v =>
      cases v with
      | jobj es => exact absurd hl (hent es)
      | jnull => rfl
      | jbool b => rfl
      | jnum n => rfl
      | jstr t => rfl
      | jarr xs => rfl
  · intro fd obj h hc hobj
    unfold _load_reuse_index_checked
    rw [h]
    show (match fd.content with
      | none => some (⟨1, []⟩ : IndexObj)
      | some (JVal.jobj kvs) =>
        match lookupKV kvs "entries" with
        | some (JVal.jobj es) => some ⟨1, es⟩
        | _ => some ⟨1, []⟩
      | some _ => none) = none
    rw [hc]
    cases obj with
    | jobj kvs => exact absurd rfl (hobj kvs)
    | jnull => rfl
    | jbool b => rfl
    | jnum n => rfl
    | jstr t => rfl
    | jarr xs => rfl
  · intro r hr2
    rw [← load_checked_agrees fs r hr2]
    unfold _load_reuse_index
    cases fsRead fs reuseIndexPath with
    | none => rfl
    | some fd =>
      obtain ⟨mt, cont⟩ := fd
      cases cont with
      | none => rfl
      | some obj =>
        show (match jGet obj "entries" with
          | some (JVal.jobj kvs) => ({ version := 1, entries := kvs } : IndexObj)
          | _ => { version := 1, entries := [] }).version = (1 : Int)
        cases jGet obj "entries" with
        | none => rfl
        | some v => cases v <;> rfl

/-- Witness for the amended C6 theorem at four concrete index files: missing,
unparsable, dict-shaped with a non-dict entries field, and the raising
non-dict JSON. -/
theorem c6_amended_witness :
    _load_reuse_index_checked [] = some ⟨1, []⟩ ∧
    _load_reuse_index_checked [(reuseIndexPath, ⟨0, none⟩)] = some ⟨1, []⟩ ∧
    _load_reuse_index_checked
      [(reuseIndexPath, ⟨0, some (JVal.jobj [("entries", JVal.jstr "x")])⟩)] = some ⟨1, []⟩ ∧
    _load_reuse_index_checked [(reuseIndexPath, ⟨0, some (JVal.jnum 42)⟩)] = none :=
  ⟨(c6_load_resilience_amended []).1 rfl,
   (c6_load_resilience_amended _).2.1 _ rfl rfl,
   (c6_load_resilience_amended _).2.2.1 _ _ rfl rfl
     (fun es h => JVal.noConfusion (Option.some.inj h)),
   (c6_load_resilience_amended _).2.2.2.1 _ _ rfl rfl (fun kvs h => JVal.noConfusion h)⟩

/-! ## C10 -/

theorem scan_and_remember_parent_ne (validateV : JVal → Bool × JVal) (env : Env) (fs : FS)
    (stats : ReuseStats) (task_id input_hash prompt_version security_profile task_pref : String)
    (cur : FsPath) (vp : FsPath) (s n : JVal) (st2 : ReuseStats) (fs2 : FS)
    (h : scan_and_remember validateV env fs stats task_id input_hash prompt_version
      security_profile task_pref cur = (some (vp, s, n), st2, fs2)) :
    vp.dropLast ≠ cur := by
  unfold scan_and_remember at h
  split at h
  · simp at h
  · rename_i best hsb
    obtain ⟨-, h2, h3, -⟩ := scan_best_some validateV fs task_pref input_hash cur best hsb
    have hv : (some (best.2.2.1, best.2.2.2.1, best.2.2.2.2) :
        Option (FsPath × JVal × JVal)) = some (vp, s, n) := congrArg Prod.fst h
    have hvp : best.2.2.1 = vp := congrArg (fun o => (o.getD (vp, s, n)).1) hv
    rw [← hvp, h2, List.dropLast_concat]
    exact h3

/-- C10: `find_reusable_ok_result` never returns a hit whose verdict file lives
in the caller's own current output directory: on the direct path an entry
pointing into `current_out_dir` is rejected (and removed under the lock) rather
than returned, and the fallback scan skips directories equal to
`current_out_dir`, so every returned hit has a directory different from
`current_out_dir`. -/
theorem c10_self_result_exclusion (validateV : JVal → Bool × JVal) (env : Env) (fs : FS)
    (task_id input_hash prompt_version security_profile : String) (cur : FsPath)
    (vp : FsPath) (s n : JVal) (stats : ReuseStats) (fs2 : FS)
    (h : find_reusable_ok_result validateV env fs task_id input_hash prompt_version
      security_profile cur = (some (vp, s, n), stats, fs2)) :
    vp.dropLast ≠ cur := by
  simp only [find_reusable_ok_result] at h
  cases hl : lookupKV (_load_reuse_index fs).entries
      (_make_reuse_key task_id input_hash prompt_version security_profile) with
  | none =>
    rw [hl] at h
    exact scan_and_remember_parent_ne _ _ _ _ _ _ _ _ _ _ _ _ _ _ _ h
  | some v =>
    rw [hl] at h
    cases v with
    | jobj ikvs =>
      simp only [find_entry_case] at h
      cases hd : direct_index_hit validateV fs input_hash cur (JVal.jobj ikvs) with
      | some hit =>
        rw [hd] at h
        simp only [find_validated_case] at h
        have hv : some hit = some (vp, s, n) := congrArg Prod.fst h
        rw [Option.some.inj hv] at hd
        exact direct_index_hit_parent_ne validateV fs input_hash cur _ vp s n hd
      | none =>
        rw [hd] at h
        simp only [find_validated_case] at h
        unfold find_stale_entry at h
        split_ifs at h with hlock
        · exact scan_and_remember_parent_ne _ _ _ _ _ _ _ _ _ _ _ _ _ _ _ h
        · exact scan_and_remember_parent_ne _ _ _ _ _ _ _ _ _ _ _ _ _ _ _ h
    | jnull => exact scan_and_remember_parent_ne _ _ _ _ _ _ _ _ _ _ _ _ _ _ _ h
    | jbool b => exact scan_and_remember_parent_ne _ _ _ _ _ _ _ _ _ _ _ _ _ _ _ h
    | jnum m => exact scan_and_remember_parent_ne _ _ _ _ _ _ _ _ _ _ _ _ _ _ _ h
    | jstr t => exact scan_and_remember_parent_ne _ _ _ _ _ _ _ _ _ _ _ _ _ _ _ h
    | jarr xs => exact scan_and_remember_parent_ne _ _ _ _ _ _ _ _ _ _ _ _ _ _ _ h

/-- Witness for C10 on a concrete state whose lookup produces a direct hit. -/
theorem c10_witness : ([wDir, "verdict.json"] : FsPath).dropLast ≠ ["out-dir"] :=
  c10_self_result_exclusion wValidate wEnv wFs2 "7" "h1" "v1" "secure" ["out-dir"]
    [wDir, "verdict.json"] wSummary wVerdict ⟨true, false, 0, 0⟩ wFs2 (by rfl)

/-! ## C9 -/

theorem if_singleton_sublist (c : Prop) [Decidable c] (x : String) :
    (if c then [x] else []).Sublist [x] := by
  split_ifs
  · exact List.Sublist.refl _
  · exact List.nil_sublist _

theorem explain_mismatches_cases (tfp : String) (acc : ExplainAcc) :
    (acc.same_task = 0 → explain_mismatches tfp acc = ["task_id"]) ∧
    (acc.same_task ≠ 0 →
      (explain_mismatches tfp acc).Sublist
        ["input_hash", "prompt_version", "security_profile", "runtime_code_fingerprint"] ∧
      (acc.same_prompt = 0 → "prompt_version" ∈ explain_mismatches tfp acc)) := by
  constructor
  · intro h0
    unfold explain_mismatches
    rw [if_pos h0]
  · intro h0
    unfold explain_mismatches
    rw [if_neg h0]
    constructor
    · have h1 := if_singleton_sublist (acc.same_hash = 0) "input_hash"
      have h2 := if_singleton_sublist (acc.same_prompt = 0) "prompt_version"
      have h3 := if_singleton_sublist (acc.same_sec = 0) "security_profile"
      have h4 := if_singleton_sublist
        (tfp ≠ "" ∧ (acc.samples.any fun s => s.runtime_code_fingerprint ≠ "") ∧ acc.same_fp = 0)
        "runtime_code_fingerprint"
      exact ((h1.append h2).append h3).append h4
    · intro hp
      rw [if_pos hp]
      simp

/-- C9: when same-task entries exist but none matches the caller's prompt
version, `explain_reuse_miss` reports a mismatch list that contains
`"prompt_version"` and not `"task_id"`; the reported dimensions always appear
in the fixed order `input_hash`, `prompt_version`, `security_profile`,
`runtime_code_fingerprint` (the list is a sublist of that sequence); and the
list is exactly `["task_id"]` whenever no same-task entry exists in the parsed
index. -/
theorem c9_explain_dimensions (fs : FS)
    (task_id input_hash prompt_version security_profile rfp : String) (limit : Int)
    (fd : FileData) (okvs : List (String × JVal))
    (hread : fsRead fs reuseIndexPath = some fd)
    (hcontent : fd.content = some (JVal.jobj okvs)) :
    ((explain_reuse_miss fs task_id input_hash prompt_version security_profile rfp
        limit).same_task = 0 →
      (explain_reuse_miss fs task_id input_hash prompt_version security_profile rfp
        limit).mismatch_dimensions = ["task_id"]) ∧
    (0 < (explain_reuse_miss fs task_id input_hash prompt_version security_profile rfp
        limit).same_task →
      (explain_reuse_miss fs task_id input_hash prompt_version security_profile rfp
        limit).mismatch_dimensions.Sublist
        ["input_hash", "prompt_version", "security_profile", "runtime_code_fingerprint"] ∧
      "task_id" ∉ (explain_reuse_miss fs task_id input_hash prompt_version security_profile rfp
        limit).mismatch_dimensions ∧
      ((explain_reuse_miss fs task_id input_hash prompt_version security_profile rfp
          limit).same_task_prompt_version = 0 →
        "prompt_version" ∈ (explain_reuse_miss fs task_id input_hash prompt_version
          security_profile rfp limit).mismatch_dimensions)) := by
  unfold explain_reuse_miss
  rw [hread]
  simp only [explain_read_case]
  rw [hcontent]
  simp only [explain_content_case]
  simp only [explain_parsed]
  split_ifs with hE
  · refine ⟨fun _ => rfl, fun h0 => ?_⟩
    simp at h0
  · dsimp only
    constructor
    · intro h0
      exact (explain_mismatches_cases _ _).1 h0
    · intro h0
      have hcase := (explain_mismatches_cases (pyStrip rfp) _).2 (Nat.pos_iff_ne_zero.mp h0)
      refine ⟨hcase.1, ?_, hcase.2⟩
      intro hmem
      exact absurd (hcase.1.subset hmem) (by decide)

def w9Entry : JVal :=
  JVal.jobj
    [("task_id", JVal.jstr "7"), ("input_hash", JVal.jstr "h1"),
     ("prompt_version", JVal.jstr "v1"), ("security_profile", JVal.jstr "secure"),
     ("summary_path", JVal.jstr "x/summary.json")]

def w9Fs : FS :=
  [(reuseIndexPath,
    ⟨0, some (JVal.jobj
      [("version", JVal.jnum 1),
       ("entries", JVal.jobj [("7|h1|v1|secure", w9Entry)])])⟩)]

/-- Witness for C9: one stored entry for task 7 with prompt version v1; a
lookup for task 7 with prompt version v2 reports `prompt_version` and not
`task_id`. -/
theorem c9_witness :
    "prompt_version" ∈ (explain_reuse_miss w9Fs "7" "h1" "v2" "secure" "" 5).mismatch_dimensions ∧
    "task_id" ∉ (explain_reuse_miss w9Fs "7" "h1" "v2" "secure" "" 5).mismatch_dimensions := by
  have h := (c9_explain_dimensions w9Fs "7" "h1" "v2" "secure" "" 5 _ _ rfl rfl).2 (by decide)
  exact ⟨h.2.2 (by decide), h.2.1⟩

/-! ## C7 -/

/-- Strict key order, used to upgrade sortedness on duplicate-free keys. -/
def dumpKeyLt (a b : String × String) : Prop :=
  a.1 < b.1

instance : IsAntisymm (String × String) dumpKeyLt :=
  ⟨fun _ _ h1 h2 => absurd h2 (lt_asymm h1)⟩

theorem jsonDumpsPairs_eq_map (kvs : List (String × JVal)) :
    jsonDumpsPairs kvs = kvs.map (fun kv => (kv.1, jsonDumps kv.2)) := by
  induction kvs with
  | nil => rfl
  | cons kv rest ih =>
    obtain ⟨k, v⟩ := kv
    rw [jsonDumpsPairs, ih, List.map_cons]

theorem sorted_pairs_eq (l1 l2 : List (String × String)) (hperm : l1.Perm l2)
    (hnd : (l1.map Prod.fst).Nodup) :
    List.insertionSort dumpKeyLe l1 = List.insertionSort dumpKeyLe l2 := by
  have hp : (List.insertionSort dumpKeyLe l1).Perm (List.insertionSort dumpKeyLe l2) :=
    (List.perm_insertionSort dumpKeyLe l1).trans
      (hperm.trans (List.perm_insertionSort dumpKeyLe l2).symm)
  have hs1 : (List.insertionSort dumpKeyLe l1).Sorted dumpKeyLe :=
    List.sorted_insertionSort dumpKeyLe l1
  have hs2 : (List.insertionSort dumpKeyLe l2).Sorted dumpKeyLe :=
    List.sorted_insertionSort dumpKeyLe l2
  have hnd1 : ((List.insertionSort dumpKeyLe l1).map Prod.fst).Nodup :=
    (((List.perm_insertionSort dumpKeyLe l1).map Prod.fst).nodup_iff).mpr hnd
  have hnd2 : ((List.insertionSort dumpKeyLe l2).map Prod.fst).Nodup := by
    refine ((hp.map Prod.fst).nodup_iff).mp hnd1
  have hstrict : ∀ l : List (String × String), l.Sorted dumpKeyLe →
      (l.map Prod.fst).Nodup → l.Sorted dumpKeyLt := by
    intro l hs hn
    have hne : l.Pairwise (fun a b : String × String => a.1 ≠ b.1) :=
      (List.pairwise_map.mp hn)
    exact (hs.and hne).imp (fun h => lt_of_le_of_ne h.1 h.2)
  exact List.eq_of_perm_of_sorted hp (hstrict _ hs1 hnd1) (hstrict _ hs2 hnd2)

theorem jsonDumps_obj_perm (p q : List (String × JVal)) (hpq : p.Perm q)
    (hnd : (p.map Prod.fst).Nodup) :
    jsonDumps (JVal.jobj p) = jsonDumps (JVal.jobj q) := by
  simp only [jsonDumps]
  rw [jsonDumpsPairs_eq_map, jsonDumpsPairs_eq_map, sorted_pairs_eq]
  · exact hpq.map _
  · rw [List.map_map]
    exact hnd

theorem lookupStr_eq_of_mem (fm : List (String × String)) (k v : String)
    (hnd : (fm.map Prod.fst).Nodup) (hmem : (k, v) ∈ fm) : lookupStr fm k = v := by
  induction fm with
  | nil => simp at hmem
  | cons e rest ih =>
    rw [List.map_cons, List.nodup_cons] at hnd
    rcases List.mem_cons.mp hmem with h1 | h1
    · rw [lookupStr, if_pos (by rw [← h1])]
      rw [← h1]
    · rw [lookupStr, if_neg ?hne]
      · exact ih hnd.2 h1
      case hne =>
        intro he
        exact hnd.1 (he ▸ List.mem_map_of_mem Prod.fst h1)

theorem lookupStr_eq_empty (fm : List (String × String)) (k : String)
    (h : ∀ kv ∈ fm, kv.1 ≠ k) : lookupStr fm k = "" := by
  induction fm with
  | nil => rfl
  | cons e rest ih =>
    rw [lookupStr, if_neg (h e (List.mem_cons_self _ _))]
    exact ih fun kv hkv => h kv (List.mem_cons_of_mem _ hkv)

theorem lookupStr_perm (fm1 fm2 : List (String × String)) (k : String)
    (hperm : fm1.Perm fm2) (hnd1 : (fm1.map Prod.fst).Nodup) :
    lookupStr fm1 k = lookupStr fm2 k := by
  have hnd2 : (fm2.map Prod.fst).Nodup := (hperm.map Prod.fst).nodup_iff.mp hnd1
  by_cases hk : ∃ v, (k, v) ∈ fm1
  · obtain ⟨v, hv⟩ := hk
    rw [lookupStr_eq_of_mem fm1 k v hnd1 hv, lookupStr_eq_of_mem fm2 k v hnd2 (hperm.subset hv)]
  · have hall : ∀ kv ∈ fm1, kv.1 ≠ k := by
      intro kv hkv he
      exact hk ⟨kv.2, by rw [← he]; exact hkv⟩
    rw [lookupStr_eq_empty fm1 k hall,
      lookupStr_eq_empty fm2 k (fun kv hkv => hall kv (hperm.symm.subset hkv))]

theorem sorted_keys_eq (l1 l2 : List String) (hperm : l1.Perm l2) :
    List.insertionSort (· ≤ ·) l1 = List.insertionSort (· ≤ ·) l2 := by
  refine List.eq_of_perm_of_sorted ?_ (List.sorted_insertionSort _ l1)
    (List.sorted_insertionSort _ l2)
  exact (List.perm_insertionSort _ l1).trans
    (hperm.trans (List.perm_insertionSort _ l2).symm)

/-- C7: the fingerprint builders are pure functions of their inputs
(no dependence on process identity, wall-clock time, or container identity),
and their output is independent of dict iteration order: permuting the payload
dict or the function map (with the duplicate-free keys a real dict has) leaves
`build_input_hash` — the digest of the canonical sorted-key JSON serialization —
and `build_runtime_code_fingerprint` byte-for-byte unchanged. -/
theorem c7_fingerprint_determinism (sha : String → String)
    (p q : List (String × JVal)) (fm1 fm2 : List (String × String))
    (hpq : p.Perm q) (hndp : (p.map Prod.fst).Nodup)
    (hfm : fm1.Perm fm2) (hndf : (fm1.map Prod.fst).Nodup) :
    build_input_hash sha (JVal.jobj p) = build_input_hash sha (JVal.jobj q) ∧
    build_runtime_code_fingerprint sha fm1 = build_runtime_code_fingerprint sha fm2 := by
  constructor
  · unfold build_input_hash
    rw [jsonDumps_obj_perm p q hpq hndp]
  · unfold build_runtime_code_fingerprint
    rw [sorted_keys_eq (fm1.map Prod.fst) (fm2.map Prod.fst) (hfm.map Prod.fst)]
    have hfun : (fun k => (k, sha (lookupStr fm1 k))) = (fun k => (k, sha (lookupStr fm2 k))) :=
      funext fun k => by rw [lookupStr_perm fm1 fm2 k hfm hndf]
    rw [hfun]

/-- Witness for C7: two orderings of the same two-key payload and function map. -/
theorem c7_witness :
    build_input_hash (fun s => s)
        (JVal.jobj [("b", JVal.jstr "1"), ("a", JVal.jstr "2")]) =
      build_input_hash (fun s => s)
        (JVal.jobj [("a", JVal.jstr "2"), ("b", JVal.jstr "1")]) ∧
    build_runtime_code_fingerprint (fun s => s) [("g", "src-g"), ("f", "src-f")] =
      build_runtime_code_fingerprint (fun s => s) [("f", "src-f"), ("g", "src-g")] :=
  c7_fingerprint_determinism (fun s => s)
    [("b", JVal.jstr "1"), ("a", JVal.jstr "2")]
    [("a", JVal.jstr "2"), ("b", JVal.jstr "1")]
    [("g", "src-g"), ("f", "src-f")] [("f", "src-f"), ("g", "src-g")]
    (@List.perm_append_comm _ [("b", JVal.jstr "1")] [("a", JVal.jstr "2")]) (by decide)
    (@List.perm_append_comm _ [("g", "src-g")] [("f", "src-f")]) (by decide)

/-! ## C5 -/

/-- C5: every entry surviving `_prune_reuse_index_entries` has a non-empty task
id, an `updated_at` within the retention window, and referenced summary and
verdict files that exist; at most the per-task cap (20) of entries survive for
any task id and at most the total cap (800) overall; and — for an index whose
stripped keys are non-empty — whenever an eligible entry is dropped, every
retained entry of the same task id is at least as recently updated (in
particular, inserting more than the per-task cap of entries for one task id
leaves at most the cap). -/
theorem c5_pruning_bounds (env : Env) (fs : FS) (entries : List (String × JVal)) :
    (∀ kv ∈ (_prune_reuse_index_entries env fs entries).1,
      jFieldStr kv.2 "task_id" ≠ "" ∧
      ¬ _parse_iso_utc (jGet kv.2 "updated_at") < pruneCutoff env ∧
      fsExists fs (_from_index_path (pyStrOr (jGet kv.2 "summary_path"))) = true ∧
      fsExists fs (_from_index_path (pyStrOr (jGet kv.2 "verdict_path"))) = true) ∧
    (∀ t : String,
      ((_prune_reuse_index_entries env fs entries).1.filter
        (fun kv => jFieldStr kv.2 "task_id" = t)).length ≤ REUSE_INDEX_MAX_ENTRIES_PER_TASK) ∧
    (_prune_reuse_index_entries env fs entries).1.length ≤ REUSE_INDEX_MAX_TOTAL_ENTRIES ∧
    ((∀ kv ∈ entries, pyStrip kv.1 ≠ "") →
      ∀ kv0 ∈ entries, ∀ r : PruneRow, rowOf env fs kv0 = some r →
        lookupKV (_prune_reuse_index_entries env fs entries).1 (pyStrip kv0.1) = none →
        ∀ kv ∈ (_prune_reuse_index_entries env fs entries).1,
          jFieldStr kv.2 "task_id" = r.task_id →
          r.updated_at ≤ _parse_iso_utc (jGet kv.2 "updated_at")) := by
  refine ⟨?_, fun t => prune_per_task_le env fs entries t, prune_total_le env fs entries, ?_⟩
  · intro kv hkv
    rcases prune_mem_inv env fs entries kv hkv with ⟨kv0, hmem0, r, hrow0, hk1, hi1, -, -⟩
    have hinv := (rowOf_eq_some_iff env fs kv0 r).mp hrow0
    have hitem : r.item = jAsObj kv0.2 := by rw [hinv.1]
    have hfields : ∀ f : String, jGet kv.2 f = jGet kv0.2 f := by
      intro f
      rw [hi1, hitem, jGet_jAsObj]
    have htask : jFieldStr kv.2 "task_id" = jFieldStr kv0.2 "task_id" := by
      unfold jFieldStr
      rw [hfields]
    have htaskr : r.task_id = jFieldStr kv0.2 "task_id" := by rw [hinv.1]
    refine ⟨?_, ?_, ?_, ?_⟩
    · rw [htask]
      exact hinv.2.1
    · rw [hfields]
      exact hinv.2.2.1
    · rw [hfields]
      exact hinv.2.2.2.1
    · rw [hfields]
      exact hinv.2.2.2.2
  · intro hne kv0 hmem0 r hrow0 hdrop
    exact prune_retained_most_recent env fs entries hne kv0 r hmem0 hrow0 hdrop

def c5Item (n : Int) : JVal :=
  JVal.jobj
    [("task_id", JVal.jstr "7"), ("updated_at", JVal.jnum n),
     ("summary_path", JVal.jstr "sc-llm-obligations-task-7-run1/summary.json"),
     ("verdict_path", JVal.jstr "sc-llm-obligations-task-7-run1/verdict.json")]

def c5Entries : List (String × JVal) :=
  [("k01", c5Item 100), ("k02", c5Item 200), ("k03", c5Item 300), ("k04", c5Item 400),
   ("k05", c5Item 500), ("k06", c5Item 600), ("k07", c5Item 700), ("k08", c5Item 800),
   ("k09", c5Item 900), ("k10", c5Item 1000), ("k11", c5Item 1100), ("k12", c5Item 1200),
   ("k13", c5Item 1300), ("k14", c5Item 1400), ("k15", c5Item 1500), ("k16", c5Item 1600),
   ("k17", c5Item 1700), ("k18", c5Item 1800), ("k19", c5Item 1900), ("k20", c5Item 2000),
   ("k21", c5Item 2100)]

/-- Witness for C5 on a 21-entry single-task index: the caps hold and the
dropped (oldest) entry is no more recent than a retained one. -/
theorem c5_witness :
    ((_prune_reuse_index_entries wEnv wFs c5Entries).1.filter
      (fun kv => jFieldStr kv.2 "task_id" = "7")).length ≤ REUSE_INDEX_MAX_ENTRIES_PER_TASK ∧
    (_prune_reuse_index_entries wEnv wFs c5Entries).1.length ≤ REUSE_INDEX_MAX_TOTAL_ENTRIES ∧
    (100 : Int) ≤ _parse_iso_utc (jGet (c5Item 200) "updated_at") := by
  refine ⟨(c5_pruning_bounds wEnv wFs c5Entries).2.1 "7",
    (c5_pruning_bounds wEnv wFs c5Entries).2.2.1, ?_⟩
  exact (c5_pruning_bounds wEnv wFs c5Entries).2.2.2 (by decide)
    ("k01", c5Item 100) (List.mem_cons_self _ _) ⟨"7", 100, "k01", c5Item 100⟩
    (by rfl) (by rfl) ("k02", c5Item 200) (lookupKV_mem _ _ _ (by rfl)) (by rfl)

/-! ## C2 -/

/-- C2: if the index holds an entry for the lookup key whose summary re-read
no longer reports status `ok` (e.g. the file was tampered with after
`remember`), and the lock can be acquired, and no matching result exists on
disk (the fallback scan misses), then `find_reusable_ok_result` returns a miss,
the stale entry is removed from the index file on disk, and the stale cached
data is never returned.  (The index is assumed key-collision-free, as every
index written by this module is.) -/
theorem c2_invalidation_on_tamper (validateV : JVal → Bool × JVal) (env : Env) (fs : FS)
    (task_id input_hash prompt_version security_profile : String) (cur : FsPath)
    (es : List (String × JVal)) (ikvs : List (String × JVal))
    (hes : (_load_reuse_index fs).entries = es)
    (hent : lookupKV es (_make_reuse_key task_id input_hash prompt_version security_profile) =
      some (JVal.jobj ikvs))
    (hstatus : pyLower (jFieldStr (read_json_pair fs
        (_from_index_path (pyStrOr (jGet (JVal.jobj ikvs) "summary_path")))
        (_from_index_path (pyStrOr (jGet (JVal.jobj ikvs) "verdict_path")))).1 "status") ≠ "ok")
    (hlock : env.lock_ok = true)
    (hnod : (es.map Prod.fst).Nodup)
    (hcol : ∀ kv ∈ es,
      pyStrip kv.1 = _make_reuse_key task_id input_hash prompt_version security_profile →
      kv.1 = _make_reuse_key task_id input_hash prompt_version security_profile)
    (hscan : scan_best validateV fs ("sc-llm-obligations-task-" ++ pyStrip task_id)
      input_hash cur = none) :
    (find_reusable_ok_result validateV env fs task_id input_hash prompt_version
      security_profile cur).1 = none ∧
    lookupKV (_load_reuse_index (find_reusable_ok_result validateV env fs task_id input_hash
        prompt_version security_profile cur).2.2).entries
      (_make_reuse_key task_id input_hash prompt_version security_profile) = none ∧
    (find_reusable_ok_result validateV env fs task_id input_hash prompt_version
      security_profile cur).2.1.reuse_index_fallback_scan = true := by
  have hfind : find_reusable_ok_result validateV env fs task_id input_hash prompt_version
      security_profile cur =
      (none,
       { _new_reuse_stats with
          reuse_index_fallback_scan := true,
          reuse_index_lock_wait_ms :=
            _new_reuse_stats.reuse_index_lock_wait_ms + env.lock_wait_ms,
          reuse_index_pruned_count := _new_reuse_stats.reuse_index_pruned_count +
            ((_prune_reuse_index_entries env fs (dictPop es
              (_make_reuse_key task_id input_hash prompt_version security_profile))).2 : Int) },
       _write_reuse_index env fs
         (_prune_reuse_index_entries env fs (dictPop es
           (_make_reuse_key task_id input_hash prompt_version security_profile))).1) := by
    simp only [find_reusable_ok_result]
    rw [hes, hent]
    simp only [find_entry_case]
    rw [direct_index_hit_none_of_status validateV fs input_hash cur (JVal.jobj ikvs) hstatus]
    simp only [find_validated_case, find_stale_entry]
    rw [if_pos hlock, hes]
    simp only [scan_and_remember]
    unfold _write_reuse_index
    rw [scan_best_write validateV fs reuseIndexPath _ _ _ cur (by decide) (by decide), hscan]
  refine ⟨by rw [hfind], ?_, by rw [hfind]⟩
  rw [hfind]
  show lookupKV (_load_reuse_index (_write_reuse_index env fs _)).entries _ = none
  rw [load_write_index]
  refine prune_lookup_none env fs _ _ ?_
  intro kv hkv
  obtain ⟨hmem, hne⟩ := mem_dictPop_key_ne es _ hnod kv hkv
  intro hstripk
  exact hne (hcol kv hmem hstripk)

def wSummaryBad : JVal := JVal.jobj [("status", JVal.jstr "fail"), ("input_hash", JVal.jstr "h1")]

/-- `wFs2` after the stored summary is edited to report a failure status. -/
def wFsTampered : FS := fsWrite wFs2 [wDir, "summary.json"] ⟨600, some wSummaryBad⟩

def wEntryKvs : List (String × JVal) :=
  [("task_id", JVal.jstr "7"), ("input_hash", JVal.jstr "h1"),
   ("prompt_version", JVal.jstr "v1"), ("security_profile", JVal.jstr "secure"),
   ("summary_path", JVal.jstr "sc-llm-obligations-task-7-run1/summary.json"),
   ("verdict_path", JVal.jstr "sc-llm-obligations-task-7-run1/verdict.json"),
   ("updated_at", JVal.jnum 1000)]

/-- Witness for C2: remember, tamper the summary status, find again — a miss,
with the stale entry gone from the on-disk index. -/
theorem c2_witness :
    (find_reusable_ok_result wValidate wEnv wFsTampered "7" "h1" "v1" "secure"
      ["out-dir"]).1 = none ∧
    lookupKV (_load_reuse_index (find_reusable_ok_result wValidate wEnv wFsTampered "7" "h1"
        "v1" "secure" ["out-dir"]).2.2).entries
      (_make_reuse_key "7" "h1" "v1" "secure") = none ∧
    (find_reusable_ok_result wValidate wEnv wFsTampered "7" "h1" "v1" "secure"
      ["out-dir"]).2.1.reuse_index_fallback_scan = true :=
  c2_invalidation_on_tamper wValidate wEnv wFsTampered "7" "h1" "v1" "secure" ["out-dir"]
    ((_load_reuse_index wFsTampered).entries) wEntryKvs rfl (by rfl) (by decide) rfl
    (by decide) (by decide) (by rfl)

/-! ## C1 -/

theorem mem_dictSet_self (d : List (String × JVal)) (k : String) (v : JVal) :
    (k, v) ∈ dictSet d k v := by
  induction d with
  | nil => simp [dictSet]
  | cons e rest ih =>
    by_cases he : e.1 = k
    · rw [dictSet, if_pos he]
      exact List.mem_cons_self _ _
    · rw [dictSet, if_neg he]
      exact List.mem_cons_of_mem _ ih

theorem pruneCutoff_le_now (env : Env) : pruneCutoff env ≤ env.now := by
  unfold pruneCutoff SECONDS_PER_DAY REUSE_INDEX_RETENTION_DAYS
  have hm : (max 0 14 : Int) = 14 := by decide
  rw [hm]
  omega

/-- C1 (amended): the remember/find round-trip holds under the conditions the
claim states — the stored summary is on disk with status `ok` and the given
input hash, the verdict passes the injected validator (returned in normal
form), and `current_out_dir` differs from the stored result's directory —
provided additionally that the trimmed task id is non-empty, the writer's lock
is acquired, the stored paths survive the index path encoding and are not the
index file itself, and the prior index is collision-free and within capacity
(at most 799 entries, at most 19 for this task id). -/
theorem c1_roundtrip_amended (validateV : JVal → Bool × JVal) (env : Env) (fs : FS)
    (task_id input_hash prompt_version security_profile : String) (cur sp vp : FsPath)
    (s v : JVal) (fds fdv : FileData) (es : List (String × JVal))
    (hs : fsRead fs sp = some fds) (hsc : fds.content = some s)
    (hv : fsRead fs vp = some fdv) (hvc : fdv.content = some v)
    (hok : pyLower (jFieldStr s "status") = "ok")
    (hhash : jFieldStr s "input_hash" = pyStrip input_hash)
    (hval : validateV (jAsObj v) = (true, v))
    (hcur : vp.dropLast ≠ cur)
    (htask : pyStrip task_id ≠ "")
    (hlock : env.lock_ok = true)
    (hsp_rt : _from_index_path (_to_index_path sp) = sp)
    (hvp_rt : _from_index_path (_to_index_path vp) = vp)
    (hsp_ne : sp ≠ reuseIndexPath) (hvp_ne : vp ≠ reuseIndexPath)
    (hes : (_load_reuse_index fs).entries = es)
    (hnod : (es.map Prod.fst).Nodup)
    (hcol : ∀ kv ∈ es,
      pyStrip kv.1 = _make_reuse_key task_id input_hash prompt_version security_profile →
      kv.1 = _make_reuse_key task_id input_hash prompt_version security_profile)
    (hcount : (es.filter (fun kv => jFieldStr kv.2 "task_id" = pyStrip task_id)).length ≤ 19)
    (hlen : es.length ≤ 799) :
    (find_reusable_ok_result validateV env
      (remember_reusable_ok_result_with_stats env fs task_id input_hash prompt_version
        security_profile sp vp).2
      task_id input_hash prompt_version security_profile cur).1 = some (vp, s, v) := by
  have hkey_strip := pyStrip_make_reuse_key task_id input_hash prompt_version security_profile
  have hkey_ne := make_reuse_key_ne_empty task_id input_hash prompt_version security_profile
  have hrow : rowOf env fs
      (_make_reuse_key task_id input_hash prompt_version security_profile,
       rememberEntry env task_id input_hash prompt_version security_profile sp vp) =
      some ⟨pyStrip (pyStrip task_id), env.now,
        pyStrip (_make_reuse_key task_id input_hash prompt_version security_profile),
        jAsObj (rememberEntry env task_id input_hash prompt_version security_profile sp vp)⟩ := by
    rw [rowOf_eq_some_iff]
    refine ⟨rfl, ?_, ?_, ?_, ?_⟩
    · show pyStrip (pyStrip task_id) ≠ ""
      rw [pyStrip_idem]
      exact htask
    · show ¬ (env.now : Int) < pruneCutoff env
      exact not_lt.mpr (pruneCutoff_le_now env)
    · show fsExists fs (_from_index_path (_to_index_path sp)) = true
      rw [hsp_rt, fsExists, hs]
      rfl
    · show fsExists fs (_from_index_path (_to_index_path vp)) = true
      rw [hvp_rt, fsExists, hv]
      rfl
  have hkeep := prune_keeps env fs
    (dictSet es (_make_reuse_key task_id input_hash prompt_version security_profile)
      (rememberEntry env task_id input_hash prompt_version security_profile sp vp))
    (_make_reuse_key task_id input_hash prompt_version security_profile)
    (rememberEntry env task_id input_hash prompt_version security_profile sp vp)
    _ hkey_strip hkey_ne hrow
    (mem_dictSet_self _ _ _)
    ?huniq ?hcount2 ?hlen2
  case huniq =>
    intro kv hkv hstrip
    rcases mem_dictSet_nodup es _ _ hnod kv hkv with h1 | ⟨h1, h2⟩
    · exact h1
    · exact absurd (hcol kv h1 hstrip) h2
  case hcount2 =>
    show ((dictSet es (_make_reuse_key task_id input_hash prompt_version security_profile)
      (rememberEntry env task_id input_hash prompt_version security_profile sp vp)).filter
      (fun kv => jFieldStr kv.2 "task_id" = pyStrip (pyStrip task_id))).length ≤ 20
    refine le_trans (dictSet_filter_length es _ _ _) ?_
    have hf : (es.filter (fun kv => jFieldStr kv.2 "task_id" =
        pyStrip (pyStrip task_id))).length ≤ 19 := by
      rw [pyStrip_idem]
      exact hcount
    split_ifs <;> omega
  case hlen2 =>
    refine le_trans (dictSet_length_le es _ _) ?_
    show es.length + 1 ≤ 800
    omega
  -- evaluate the write, then the second call's direct-index path
  rw [remember_eval env fs task_id input_hash prompt_version security_profile sp vp hlock, hes]
  simp only [find_reusable_ok_result, load_write_index]
  have hkeep2 : lookupKV (_prune_reuse_index_entries env fs
      (dictSet es (_make_reuse_key task_id input_hash prompt_version security_profile)
        (rememberEntry env task_id input_hash prompt_version security_profile sp vp))).1
      (_make_reuse_key task_id input_hash prompt_version security_profile) =
      some (JVal.jobj
        [("task_id", JVal.jstr (pyStrip task_id)),
         ("input_hash", JVal.jstr (pyStrip input_hash)),
         ("prompt_version", JVal.jstr (pyStrip prompt_version)),
         ("security_profile", JVal.jstr (pyStrip security_profile)),
         ("summary_path", JVal.jstr (_to_index_path sp)),
         ("verdict_path", JVal.jstr (_to_index_path vp)),
         ("updated_at", JVal.jnum env.now)]) := hkeep
  rw [hkeep2]
  simp only [find_entry_case]
  have hs2 : fsRead (_write_reuse_index env fs
      (_prune_reuse_index_entries env fs
        (dictSet es (_make_reuse_key task_id input_hash prompt_version security_profile)
          (rememberEntry env task_id input_hash prompt_version security_profile sp vp))).1) sp =
      some fds := by
    unfold _write_reuse_index
    rw [fsRead_fsWrite_ne fs reuseIndexPath sp _ hsp_ne]
    exact hs
  have hv2 : fsRead (_write_reuse_index env fs
      (_prune_reuse_index_entries env fs
        (dictSet es (_make_reuse_key task_id input_hash prompt_version security_profile)
          (rememberEntry env task_id input_hash prompt_version security_profile sp vp))).1) vp =
      some fdv := by
    unfold _write_reuse_index
    rw [fsRead_fsWrite_ne fs reuseIndexPath vp _ hvp_ne]
    exact hv
  rw [direct_index_hit_eval validateV _ input_hash cur
    (JVal.jobj
      [("task_id", JVal.jstr (pyStrip task_id)),
       ("input_hash", JVal.jstr (pyStrip input_hash)),
       ("prompt_version", JVal.jstr (pyStrip prompt_version)),
       ("security_profile", JVal.jstr (pyStrip security_profile)),
       ("summary_path", JVal.jstr (_to_index_path sp)),
       ("verdict_path", JVal.jstr (_to_index_path vp)),
       ("updated_at", JVal.jnum env.now)])
    sp vp s v v fds fdv hsp_rt hvp_rt hcur hs2 hsc hv2 hvc hok hhash hval]
  rfl

/-- A stored ok-result in a directory that does not carry the task-id directory
prefix (paths are still round-trippable and distinct from the index file). -/
def c1Fs : FS :=
  [(["d", "summary.json"], ⟨500, some wSummary⟩), (["d", "verdict.json"], ⟨501, some wVerdict⟩)]

/-- `c1Fs` after remembering the stored result under the whitespace task id. -/
def c1Fs2 : FS :=
  (remember_reusable_ok_result_with_stats wEnv c1Fs " " "h1" "v1" "secure"
    ["d", "summary.json"] ["d", "verdict.json"]).2

/-- C1 counterexample: with task id `" "` (whitespace only), every condition of
the claim holds — the stored summary has status `ok` and the stated input hash,
the verdict validates, both files are on disk, the lock is held, and the new
out-dir differs — yet the find call running immediately after the remember call
returns no hit: pruning drops entries whose trimmed task id is empty, so the
entry just written never survives into the index, and the fallback scan does
not match a directory that lacks the task prefix. -/
theorem c1_counterexample :
    pyLower (jFieldStr wSummary "status") = "ok" ∧
    jFieldStr wSummary "input_hash" = pyStrip "h1" ∧
    wValidate (jAsObj wVerdict) = (true, wVerdict) ∧
    fsRead c1Fs ["d", "summary.json"] = some ⟨500, some wSummary⟩ ∧
    fsRead c1Fs ["d", "verdict.json"] = some ⟨501, some wVerdict⟩ ∧
    (["d", "verdict.json"] : FsPath).dropLast ≠ ["out"] ∧
    wEnv.lock_ok = true ∧
    (find_reusable_ok_result wValidate wEnv c1Fs2 " " "h1" "v1" "secure" ["out"]).1 = none :=
  ⟨rfl, rfl, rfl, rfl, rfl, by decide, rfl, rfl⟩

/-- Witness for the amended C1 round-trip at the concrete task-7 scenario. -/
theorem c1_amended_witness :
    (find_reusable_ok_result wValidate wEnv wFs2 "7" "h1" "v1" "secure" ["out"]).1 =
      some ([wDir, "verdict.json"], wSummary, wVerdict) :=
  c1_roundtrip_amended wValidate wEnv wFs "7" "h1" "v1" "secure" ["out"]
    [wDir, "summary.json"] [wDir, "verdict.json"] wSummary wVerdict
    ⟨500, some wSummary⟩ ⟨501, some wVerdict⟩ []
    rfl rfl rfl rfl rfl rfl rfl (by decide) (by decide) rfl rfl rfl
    (by decide) (by decide) rfl List.nodup_nil
    (fun kv hkv _ => absurd hkv (List.not_mem_nil kv)) (by decide) (by decide)

/-! ## C3 -/

theorem scan_and_remember_eval (validateV : JVal → Bool × JVal) (env : Env) (fs : FS)
    (stats : ReuseStats)
    (task_id input_hash prompt_version security_profile task_pref : String) (cur : FsPath)
    (mt : Int) (sp vp : FsPath) (s v : JVal)
    (hscan : scan_best validateV fs task_pref input_hash cur = some (mt, sp, vp, s, v)) :
    scan_and_remember validateV env fs stats task_id input_hash prompt_version
      security_profile task_pref cur =
      (some (vp, s, v),
       merge_reuse_stats
         [{ stats with reuse_index_fallback_scan := true },
          (remember_reusable_ok_result_with_stats env fs task_id input_hash prompt_version
            security_profile sp vp).1],
       (remember_reusable_ok_result_with_stats env fs task_id input_hash prompt_version
         security_profile sp vp).2) := by
  simp only [scan_and_remember]
  split
  · rename_i heq
    rw [hscan] at heq
    exact Option.noConfusion heq
  · rename_i b heq
    rw [hscan] at heq
    obtain rfl := Option.some.inj heq
    rfl

/-- C3 (amended): with an empty (or missing) index, if the fallback scan over
the stored result directories yields a best candidate — a summary with status
`ok` and the given input hash plus a validator-approved verdict, in a directory
carrying the task prefix and different from the caller's out-dir — then
`find_reusable_ok_result` returns that candidate with the fallback-scan stat
set (and no index hit), and, provided the trimmed task id is non-empty, the
lock is acquired, and the candidate's paths survive the index path encoding
and are not the index file itself, a second identical call returns the same
candidate via the direct-index path with the index-hit stat set. -/
theorem c3_fallback_scan_amended (validateV : JVal → Bool × JVal) (env : Env) (fs : FS)
    (task_id input_hash prompt_version security_profile : String) (cur : FsPath)
    (mt : Int) (sp vp : FsPath) (s v : JVal)
    (hes : (_load_reuse_index fs).entries = [])
    (hscan : scan_best validateV fs ("sc-llm-obligations-task-" ++ pyStrip task_id)
      input_hash cur = some (mt, sp, vp, s, v))
    (htask : pyStrip task_id ≠ "")
    (hlock : env.lock_ok = true)
    (hsp_rt : _from_index_path (_to_index_path sp) = sp)
    (hvp_rt : _from_index_path (_to_index_path vp) = vp)
    (hsp_ne : sp ≠ reuseIndexPath) (hvp_ne : vp ≠ reuseIndexPath) :
    (find_reusable_ok_result validateV env fs task_id input_hash prompt_version
      security_profile cur).1 = some (vp, s, v) ∧
    (find_reusable_ok_result validateV env fs task_id input_hash prompt_version
      security_profile cur).2.1.reuse_index_fallback_scan = true ∧
    (find_reusable_ok_result validateV env fs task_id input_hash prompt_version
      security_profile cur).2.1.reuse_index_hit = false ∧
    (find_reusable_ok_result validateV env
      (find_reusable_ok_result validateV env fs task_id input_hash prompt_version
        security_profile cur).2.2
      task_id input_hash prompt_version security_profile cur).1 = some (vp, s, v) ∧
    (find_reusable_ok_result validateV env
      (find_reusable_ok_result validateV env fs task_id input_hash prompt_version
        security_profile cur).2.2
      task_id input_hash prompt_version security_profile cur).2.1.reuse_index_hit = true := by
  obtain ⟨hsl, hvp_eq, hpar, hpref, ⟨fds, hfds, hfdsc⟩, hok, hhash,
    v0, fdv, hfdv, hfdvc, hmt, hval0⟩ :=
    scan_best_some validateV fs _ input_hash cur _ hscan
  have hfds2 : fsRead fs sp = some fds := hfds
  have hfdsc2 : fds.content = some s := hfdsc
  have hfdv2 : fsRead fs vp = some fdv := hfdv
  have hfdvc2 : fdv.content = some v0 := hfdvc
  have hok2 : pyLower (jFieldStr s "status") = "ok" := hok
  have hhash2 : jFieldStr s "input_hash" = pyStrip input_hash := hhash
  have hval02 : validateV (jAsObj v0) = (true, v) := hval0
  have hvp_eq2 : vp = sp.dropLast ++ ["verdict.json"] := hvp_eq
  have hpar2 : sp.dropLast ≠ cur := hpar
  have hcur2 : vp.dropLast ≠ cur := by
    rw [hvp_eq2, List.dropLast_concat]
    exact hpar2
  have hfirst : find_reusable_ok_result validateV env fs task_id input_hash prompt_version
      security_profile cur =
      (some (vp, s, v),
       merge_reuse_stats
         [{ _new_reuse_stats with reuse_index_fallback_scan := true },
          (remember_reusable_ok_result_with_stats env fs task_id input_hash prompt_version
            security_profile sp vp).1],
       (remember_reusable_ok_result_with_stats env fs task_id input_hash prompt_version
         security_profile sp vp).2) := by
    simp only [find_reusable_ok_result]
    rw [hes]
    show scan_and_remember validateV env fs _new_reuse_stats task_id input_hash prompt_version
      security_profile ("sc-llm-obligations-task-" ++ pyStrip task_id) cur = _
    exact scan_and_remember_eval validateV env fs _new_reuse_stats task_id input_hash
      prompt_version security_profile _ cur mt sp vp s v hscan
  have hrow : rowOf env fs
      (_make_reuse_key task_id input_hash prompt_version security_profile,
       rememberEntry env task_id input_hash prompt_version security_profile sp vp) =
      some ⟨pyStrip (pyStrip task_id), env.now,
        pyStrip (_make_reuse_key task_id input_hash prompt_version security_profile),
        jAsObj (rememberEntry env task_id input_hash prompt_version security_profile sp vp)⟩ := by
    rw [rowOf_eq_some_iff]
    refine ⟨rfl, ?_, ?_, ?_, ?_⟩
    · show pyStrip (pyStrip task_id) ≠ ""
      rw [pyStrip_idem]
      exact htask
    · show ¬ (env.now : Int) < pruneCutoff env
      exact not_lt.mpr (pruneCutoff_le_now env)
    · show fsExists fs (_from_index_path (_to_index_path sp)) = true
      rw [hsp_rt, fsExists, hfds2]
      rfl
    · show fsExists fs (_from_index_path (_to_index_path vp)) = true
      rw [hvp_rt, fsExists, hfdv2]
      rfl
  have hkeep := prune_keeps env fs
    (dictSet [] (_make_reuse_key task_id input_hash prompt_version security_profile)
      (rememberEntry env task_id input_hash prompt_version security_profile sp vp))
    (_make_reuse_key task_id input_hash prompt_version security_profile)
    (rememberEntry env task_id input_hash prompt_version security_profile sp vp)
    _ (pyStrip_make_reuse_key task_id input_hash prompt_version security_profile)
    (make_reuse_key_ne_empty task_id input_hash prompt_version security_profile) hrow
    (mem_dictSet_self _ _ _)
    ?huniq ?hcount ?hlen
  case huniq =>
    intro kv hkv _
    have hkv2 : kv ∈ [(_make_reuse_key task_id input_hash prompt_version security_profile,
        rememberEntry env task_id input_hash prompt_version security_profile sp vp)] := hkv
    exact List.mem_singleton.mp hkv2
  case hcount =>
    refine le_trans (List.length_filter_le _ _) ?_
    show 1 ≤ REUSE_INDEX_MAX_ENTRIES_PER_TASK
    decide
  case hlen =>
    show 1 ≤ REUSE_INDEX_MAX_TOTAL_ENTRIES
    decide
  have hkeep2 : lookupKV (_prune_reuse_index_entries env fs
      (dictSet [] (_make_reuse_key task_id input_hash prompt_version security_profile)
        (rememberEntry env task_id input_hash prompt_version security_profile sp vp))).1
      (_make_reuse_key task_id input_hash prompt_version security_profile) =
      some (JVal.jobj
        [("task_id", JVal.jstr (pyStrip task_id)),
         ("input_hash", JVal.jstr (pyStrip input_hash)),
         ("prompt_version", JVal.jstr (pyStrip prompt_version)),
         ("security_profile", JVal.jstr (pyStrip security_profile)),
         ("summary_path", JVal.jstr (_to_index_path sp)),
         ("verdict_path", JVal.jstr (_to_index_path vp)),
         ("updated_at", JVal.jnum env.now)]) := hkeep
  have hsecond : find_reusable_ok_result validateV env
      (_write_reuse_index env fs (_prune_reuse_index_entries env fs
        (dictSet [] (_make_reuse_key task_id input_hash prompt_version security_profile)
          (rememberEntry env task_id input_hash prompt_version security_profile sp vp))).1)
      task_id input_hash prompt_version security_profile cur =
      (some (vp, s, v), { _new_reuse_stats with reuse_index_hit := true },
       _write_reuse_index env fs (_prune_reuse_index_entries env fs
        (dictSet [] (_make_reuse_key task_id input_hash prompt_version security_profile)
          (rememberEntry env task_id input_hash prompt_version security_profile sp vp))).1) := by
    simp only [find_reusable_ok_result, load_write_index]
    rw [hkeep2]
    simp only [find_entry_case]
    have hs2 : fsRead (_write_reuse_index env fs (_prune_reuse_index_entries env fs
        (dictSet [] (_make_reuse_key task_id input_hash prompt_version security_profile)
          (rememberEntry env task_id input_hash prompt_version security_profile sp vp))).1) sp =
        some fds := by
      unfold _write_reuse_index
      rw [fsRead_fsWrite_ne fs reuseIndexPath sp _ hsp_ne]
      exact hfds2
    have hv2 : fsRead (_write_reuse_index env fs (_prune_reuse_index_entries env fs
        (dictSet [] (_make_reuse_key task_id input_hash prompt_version security_profile)
          (rememberEntry env task_id input_hash prompt_version security_profile sp vp))).1) vp =
        some fdv := by
      unfold _write_reuse_index
      rw [fsRead_fsWrite_ne fs reuseIndexPath vp _ hvp_ne]
      exact hfdv2
    rw [direct_index_hit_eval validateV _ input_hash cur
      (JVal.jobj
        [("task_id", JVal.jstr (pyStrip task_id)),
         ("input_hash", JVal.jstr (pyStrip input_hash)),
         ("prompt_version", JVal.jstr (pyStrip prompt_version)),
         ("security_profile", JVal.jstr (pyStrip security_profile)),
         ("summary_path", JVal.jstr (_to_index_path sp)),
         ("verdict_path", JVal.jstr (_to_index_path vp)),
         ("updated_at", JVal.jnum env.now)])
      sp vp s v0 v fds fdv hsp_rt hvp_rt hcur2 hs2 hfdsc2 hv2 hfdvc2 hok2 hhash2 hval02]
    rfl
  have hfs3 : (find_reusable_ok_result validateV env fs task_id input_hash prompt_version
      security_profile cur).2.2 =
      _write_reuse_index env fs (_prune_reuse_index_entries env fs
        (dictSet [] (_make_reuse_key task_id input_hash prompt_version security_profile)
          (rememberEntry env task_id input_hash prompt_version security_profile sp vp))).1 := by
    rw [hfirst, remember_eval env fs task_id input_hash prompt_version security_profile
      sp vp hlock, hes]
  refine ⟨?_, ?_, ?_, ?_, ?_⟩
  · rw [hfirst]
  · rw [hfirst, remember_eval env fs task_id input_hash prompt_version security_profile
      sp vp hlock]
    rfl
  · rw [hfirst, remember_eval env fs task_id input_hash prompt_version security_profile
      sp vp hlock]
    rfl
  · rw [hfs3, hsecond]
  · rw [hfs3, hsecond]

/-- C3 counterexample: with task id `" "` (whitespace only) all stated
conditions hold — the on-disk directory carries the task prefix, holds a valid
ok result with the matching hash and a validator-approved verdict, it is not
the caller's out-dir, and the index file is missing — and the first call does
return the result via the fallback scan; but the write-back is pruned away
(empty trimmed task id), so the second identical call recovers the result only
by scanning again and its stats report no index hit, contradicting the claimed
`index_hit=true` on the second call. -/
theorem c3_counterexample :
    fsExists wFs reuseIndexPath = false ∧
    pyLower (jFieldStr wSummary "status") = "ok" ∧
    jFieldStr wSummary "input_hash" = pyStrip "h1" ∧
    wValidate (jAsObj wVerdict) = (true, wVerdict) ∧
    pyStartsWith (dirName [wDir]) ("sc-llm-obligations-task-" ++ pyStrip " ") = true ∧
    ([wDir] : FsPath) ≠ ["out"] ∧
    wEnv.lock_ok = true ∧
    (find_reusable_ok_result wValidate wEnv wFs " " "h1" "v1" "secure" ["out"]).1 =
      some ([wDir, "verdict.json"], wSummary, wVerdict) ∧
    (find_reusable_ok_result wValidate wEnv wFs " " "h1" "v1" "secure"
      ["out"]).2.1.reuse_index_fallback_scan = true ∧
    (find_reusable_ok_result wValidate wEnv
        (find_reusable_ok_result wValidate wEnv wFs " " "h1" "v1" "secure" ["out"]).2.2
        " " "h1" "v1" "secure" ["out"]).1 =
      some ([wDir, "verdict.json"], wSummary, wVerdict) ∧
    (find_reusable_ok_result wValidate wEnv
        (find_reusable_ok_result wValidate wEnv wFs " " "h1" "v1" "secure" ["out"]).2.2
        " " "h1" "v1" "secure" ["out"]).2.1.reuse_index_hit = false :=
  ⟨rfl, rfl, rfl, rfl, rfl, by decide, rfl, rfl, rfl, rfl, rfl⟩

/-- Witness for the amended C3 theorem: the task-7 scenario, where the first
call recovers the stored result by scanning and the second call hits the
rebuilt index directly. -/
theorem c3_amended_witness :
    (find_reusable_ok_result wValidate wEnv wFs "7" "h1" "v1" "secure" ["out"]).1 =
      some ([wDir, "verdict.json"], wSummary, wVerdict) ∧
    (find_reusable_ok_result wValidate wEnv wFs "7" "h1" "v1" "secure"
      ["out"]).2.1.reuse_index_fallback_scan = true ∧
    (find_reusable_ok_result wValidate wEnv wFs "7" "h1" "v1" "secure"
      ["out"]).2.1.reuse_index_hit = false ∧
    (find_reusable_ok_result wValidate wEnv
      (find_reusable_ok_result wValidate wEnv wFs "7" "h1" "v1" "secure" ["out"]).2.2
      "7" "h1" "v1" "secure" ["out"]).1 =
      some ([wDir, "verdict.json"], wSummary, wVerdict) ∧
    (find_reusable_ok_result wValidate wEnv
      (find_reusable_ok_result wValidate wEnv wFs "7" "h1" "v1" "secure" ["out"]).2.2
      "7" "h1" "v1" "secure" ["out"]).2.1.reuse_index_hit = true :=
  c3_fallback_scan_amended wValidate wEnv wFs "7" "h1" "v1" "secure" ["out"] 501
    [wDir, "summary.json"] [wDir, "verdict.json"] wSummary wVerdict
    rfl rfl (by decide) rfl rfl rfl (by decide) (by decide)

/-! ## C4 -/

theorem length_le_one_of_all_eq {α : Type} (l : List α) (a : α) (h : ∀ x ∈ l, x = a)
    (hn : l.Nodup) : l.length ≤ 1 := by
  cases l with
  | nil => simp
  | cons x t =>
    cases t with
    | nil => simp
    | cons y t2 =>
      exfalso
      have hx : x = a := h x (List.mem_cons_self _ _)
      have hy : y = a := h y (List.mem_cons_of_mem _ (List.mem_cons_self _ _))
      rw [List.nodup_cons] at hn
      have hxy : x ∈ y :: t2 := by
        rw [hx, ← hy]
        exact List.mem_cons_self _ _
      exact hn.1 hxy

set_option maxHeartbeats 4000000 in
/-- C4 (amended): starting from an empty index, two sequential remember calls
for distinct lookup keys — each with a non-empty trimmed task id, the lock
acquired, its summary and verdict files on disk at paths that survive the
index path encoding and are not the index file itself — leave both entries
present in the final on-disk index: the second writer loads the first writer's
save before merging, so nothing is clobbered. -/
theorem c4_concurrent_writers_amended (env : Env) (fs : FS)
    (task1 ih1 pv1 sprof1 task2 ih2 pv2 sprof2 : String)
    (sp1 vp1 sp2 vp2 : FsPath)
    (hkk : _make_reuse_key task1 ih1 pv1 sprof1 ≠ _make_reuse_key task2 ih2 pv2 sprof2)
    (htask1 : pyStrip task1 ≠ "") (htask2 : pyStrip task2 ≠ "")
    (hlock : env.lock_ok = true)
    (hes : (_load_reuse_index fs).entries = [])
    (hsp1_rt : _from_index_path (_to_index_path sp1) = sp1)
    (hvp1_rt : _from_index_path (_to_index_path vp1) = vp1)
    (hsp2_rt : _from_index_path (_to_index_path sp2) = sp2)
    (hvp2_rt : _from_index_path (_to_index_path vp2) = vp2)
    (hsp1_ne : sp1 ≠ reuseIndexPath) (hvp1_ne : vp1 ≠ reuseIndexPath)
    (hsp2_ne : sp2 ≠ reuseIndexPath) (hvp2_ne : vp2 ≠ reuseIndexPath)
    (hex_sp1 : fsExists fs sp1 = true) (hex_vp1 : fsExists fs vp1 = true)
    (hex_sp2 : fsExists fs sp2 = true) (hex_vp2 : fsExists fs vp2 = true) :
    lookupKV (_load_reuse_index
        (remember_reusable_ok_result_with_stats env
          (remember_reusable_ok_result_with_stats env fs task1 ih1 pv1 sprof1 sp1 vp1).2
          task2 ih2 pv2 sprof2 sp2 vp2).2).entries
      (_make_reuse_key task1 ih1 pv1 sprof1) =
      some (rememberEntry env task1 ih1 pv1 sprof1 sp1 vp1) ∧
    lookupKV (_load_reuse_index
        (remember_reusable_ok_result_with_stats env
          (remember_reusable_ok_result_with_stats env fs task1 ih1 pv1 sprof1 sp1 vp1).2
          task2 ih2 pv2 sprof2 sp2 vp2).2).entries
      (_make_reuse_key task2 ih2 pv2 sprof2) =
      some (rememberEntry env task2 ih2 pv2 sprof2 sp2 vp2) := by
  have hrow1 : rowOf env fs
      (_make_reuse_key task1 ih1 pv1 sprof1,
       rememberEntry env task1 ih1 pv1 sprof1 sp1 vp1) =
      some ⟨pyStrip (pyStrip task1), env.now,
        pyStrip (_make_reuse_key task1 ih1 pv1 sprof1),
        jAsObj (rememberEntry env task1 ih1 pv1 sprof1 sp1 vp1)⟩ := by
    rw [rowOf_eq_some_iff]
    refine ⟨rfl, ?_, ?_, ?_, ?_⟩
    · show pyStrip (pyStrip task1) ≠ ""
      rw [pyStrip_idem]
      exact htask1
    · show ¬ (env.now : Int) < pruneCutoff env
      exact not_lt.mpr (pruneCutoff_le_now env)
    · show fsExists fs (_from_index_path (_to_index_path sp1)) = true
      rw [hsp1_rt]
      exact hex_sp1
    · show fsExists fs (_from_index_path (_to_index_path vp1)) = true
      rw [hvp1_rt]
      exact hex_vp1
  have hkeep1 := prune_keeps env fs
    (dictSet [] (_make_reuse_key task1 ih1 pv1 sprof1)
      (rememberEntry env task1 ih1 pv1 sprof1 sp1 vp1))
    (_make_reuse_key task1 ih1 pv1 sprof1)
    (rememberEntry env task1 ih1 pv1 sprof1 sp1 vp1)
    _ (pyStrip_make_reuse_key task1 ih1 pv1 sprof1)
    (make_reuse_key_ne_empty task1 ih1 pv1 sprof1) hrow1
    (mem_dictSet_self _ _ _)
    ?huniqa ?hcounta ?hlena
  case huniqa =>
    intro kv hkv _
    have hkv2 : kv ∈ [(_make_reuse_key task1 ih1 pv1 sprof1,
        rememberEntry env task1 ih1 pv1 sprof1 sp1 vp1)] := hkv
    exact List.mem_singleton.mp hkv2
  case hcounta =>
    refine le_trans (List.length_filter_le _ _) ?_
    show 1 ≤ REUSE_INDEX_MAX_ENTRIES_PER_TASK
    decide
  case hlena =>
    show 1 ≤ REUSE_INDEX_MAX_TOTAL_ENTRIES
    decide
  have hkeep1b : lookupKV (_prune_reuse_index_entries env fs
      (dictSet [] (_make_reuse_key task1 ih1 pv1 sprof1)
        (rememberEntry env task1 ih1 pv1 sprof1 sp1 vp1))).1
      (_make_reuse_key task1 ih1 pv1 sprof1) =
      some (jAsObj (rememberEntry env task1 ih1 pv1 sprof1 sp1 vp1)) := hkeep1
  have hall1 : ∀ kv ∈ (_prune_reuse_index_entries env fs
      (dictSet [] (_make_reuse_key task1 ih1 pv1 sprof1)
        (rememberEntry env task1 ih1 pv1 sprof1 sp1 vp1))).1,
      kv = (_make_reuse_key task1 ih1 pv1 sprof1,
        jAsObj (rememberEntry env task1 ih1 pv1 sprof1 sp1 vp1)) := by
    intro kv hkv
    obtain ⟨kv0, hkv0, r, hrow0, hk, hi, hne, hlim⟩ := prune_mem_inv env fs _ kv hkv
    have hkv0b : kv0 ∈ [(_make_reuse_key task1 ih1 pv1 sprof1,
        rememberEntry env task1 ih1 pv1 sprof1 sp1 vp1)] := hkv0
    have hkv0c := List.mem_singleton.mp hkv0b
    rw [hkv0c, hrow1] at hrow0
    obtain rfl := (Option.some.inj hrow0).symm
    have h1 : kv.1 = _make_reuse_key task1 ih1 pv1 sprof1 := by
      rw [hk]
      exact pyStrip_make_reuse_key task1 ih1 pv1 sprof1
    exact Prod.ext h1 hi
  have hnd1 : ((_prune_reuse_index_entries env fs
      (dictSet [] (_make_reuse_key task1 ih1 pv1 sprof1)
        (rememberEntry env task1 ih1 pv1 sprof1 sp1 vp1))).1.map Prod.fst).Nodup :=
    prune_nodup env fs _
  have hlen1 : (_prune_reuse_index_entries env fs
      (dictSet [] (_make_reuse_key task1 ih1 pv1 sprof1)
        (rememberEntry env task1 ih1 pv1 sprof1 sp1 vp1))).1.length ≤ 1 :=
    length_le_one_of_all_eq _ _ hall1 (List.Nodup.of_map _ hnd1)
  have hmem1 : (_make_reuse_key task1 ih1 pv1 sprof1,
      jAsObj (rememberEntry env task1 ih1 pv1 sprof1 sp1 vp1)) ∈
      (_prune_reuse_index_entries env fs
        (dictSet [] (_make_reuse_key task1 ih1 pv1 sprof1)
          (rememberEntry env task1 ih1 pv1 sprof1 sp1 vp1))).1 :=
    lookupKV_mem _ _ _ hkeep1b
  have hex1_sp1 : fsExists (_write_reuse_index env fs (_prune_reuse_index_entries env fs
      (dictSet [] (_make_reuse_key task1 ih1 pv1 sprof1)
        (rememberEntry env task1 ih1 pv1 sprof1 sp1 vp1))).1) sp1 = true := by
    unfold _write_reuse_index
    rw [fsExists_fsWrite_ne fs reuseIndexPath sp1 _ hsp1_ne]
    exact hex_sp1
  have hex1_vp1 : fsExists (_write_reuse_index env fs (_prune_reuse_index_entries env fs
      (dictSet [] (_make_reuse_key task1 ih1 pv1 sprof1)
        (rememberEntry env task1 ih1 pv1 sprof1 sp1 vp1))).1) vp1 = true := by
    unfold _write_reuse_index
    rw [fsExists_fsWrite_ne fs reuseIndexPath vp1 _ hvp1_ne]
    exact hex_vp1
  have hex1_sp2 : fsExists (_write_reuse_index env fs (_prune_reuse_index_entries env fs
      (dictSet [] (_make_reuse_key task1 ih1 pv1 sprof1)
        (rememberEntry env task1 ih1 pv1 sprof1 sp1 vp1))).1) sp2 = true := by
    unfold _write_reuse_index
    rw [fsExists_fsWrite_ne fs reuseIndexPath sp2 _ hsp2_ne]
    exact hex_sp2
  have hex1_vp2 : fsExists (_write_reuse_index env fs (_prune_reuse_index_entries env fs
      (dictSet [] (_make_reuse_key task1 ih1 pv1 sprof1)
        (rememberEntry env task1 ih1 pv1 sprof1 sp1 vp1))).1) vp2 = true := by
    unfold _write_reuse_index
    rw [fsExists_fsWrite_ne fs reuseIndexPath vp2 _ hvp2_ne]
    exact hex_vp2
  have hrow2 : rowOf env (_write_reuse_index env fs (_prune_reuse_index_entries env fs
      (dictSet [] (_make_reuse_key task1 ih1 pv1 sprof1)
        (rememberEntry env task1 ih1 pv1 sprof1 sp1 vp1))).1)
      (_make_reuse_key task2 ih2 pv2 sprof2,
       rememberEntry env task2 ih2 pv2 sprof2 sp2 vp2) =
      some ⟨pyStrip (pyStrip task2), env.now,
        pyStrip (_make_reuse_key task2 ih2 pv2 sprof2),
        jAsObj (rememberEntry env task2 ih2 pv2 sprof2 sp2 vp2)⟩ := by
    rw [rowOf_eq_some_iff]
    refine ⟨rfl, ?_, ?_, ?_, ?_⟩
    · show pyStrip (pyStrip task2) ≠ ""
      rw [pyStrip_idem]
      exact htask2
    · show ¬ (env.now : Int) < pruneCutoff env
      exact not_lt.mpr (pruneCutoff_le_now env)
    · show fsExists _ (_from_index_path (_to_index_path sp2)) = true
      rw [hsp2_rt]
      exact hex1_sp2
    · show fsExists _ (_from_index_path (_to_index_path vp2)) = true
      rw [hvp2_rt]
      exact hex1_vp2
  have hrow1c : rowOf env (_write_reuse_index env fs (_prune_reuse_index_entries env fs
      (dictSet [] (_make_reuse_key task1 ih1 pv1 sprof1)
        (rememberEntry env task1 ih1 pv1 sprof1 sp1 vp1))).1)
      (_make_reuse_key task1 ih1 pv1 sprof1,
       rememberEntry env task1 ih1 pv1 sprof1 sp1 vp1) =
      some ⟨pyStrip (pyStrip task1), env.now,
        pyStrip (_make_reuse_key task1 ih1 pv1 sprof1),
        jAsObj (rememberEntry env task1 ih1 pv1 sprof1 sp1 vp1)⟩ := by
    rw [rowOf_eq_some_iff]
    refine ⟨rfl, ?_, ?_, ?_, ?_⟩
    · show pyStrip (pyStrip task1) ≠ ""
      rw [pyStrip_idem]
      exact htask1
    · show ¬ (env.now : Int) < pruneCutoff env
      exact not_lt.mpr (pruneCutoff_le_now env)
    · show fsExists _ (_from_index_path (_to_index_path sp1)) = true
      rw [hsp1_rt]
      exact hex1_sp1
    · show fsExists _ (_from_index_path (_to_index_path vp1)) = true
      rw [hvp1_rt]
      exact hex1_vp1
  have hkeep2 := prune_keeps env
    (_write_reuse_index env fs (_prune_reuse_index_entries env fs
      (dictSet [] (_make_reuse_key task1 ih1 pv1 sprof1)
        (rememberEntry env task1 ih1 pv1 sprof1 sp1 vp1))).1)
    (dictSet (_prune_reuse_index_entries env fs
      (dictSet [] (_make_reuse_key task1 ih1 pv1 sprof1)
        (rememberEntry env task1 ih1 pv1 sprof1 sp1 vp1))).1
      (_make_reuse_key task2 ih2 pv2 sprof2)
      (rememberEntry env task2 ih2 pv2 sprof2 sp2 vp2))
    (_make_reuse_key task2 ih2 pv2 sprof2)
    (rememberEntry env task2 ih2 pv2 sprof2 sp2 vp2)
    _ (pyStrip_make_reuse_key task2 ih2 pv2 sprof2)
    (make_reuse_key_ne_empty task2 ih2 pv2 sprof2) hrow2
    (mem_dictSet_self _ _ _)
    ?huniqb ?hcountb ?hlenb
  case huniqb =>
    intro kv hkv hstrip
    rcases mem_dictSet_nodup _ _ _ hnd1 kv hkv with h | ⟨hmem, hne2⟩
    · exact h
    · exfalso
      have hkv1 := hall1 kv hmem
      rw [hkv1] at hstrip
      apply hkk
      rw [← pyStrip_make_reuse_key task1 ih1 pv1 sprof1]
      exact hstrip
  case hcountb =>
    exact le_trans (List.length_filter_le _ _) (le_trans (dictSet_length_le _ _ _)
      (le_trans (Nat.add_le_add_right hlen1 1) (by decide)))
  case hlenb =>
    exact le_trans (dictSet_length_le _ _ _)
      (le_trans (Nat.add_le_add_right hlen1 1) (by decide))
  have hkeep1c := prune_keeps env
    (_write_reuse_index env fs (_prune_reuse_index_entries env fs
      (dictSet [] (_make_reuse_key task1 ih1 pv1 sprof1)
        (rememberEntry env task1 ih1 pv1 sprof1 sp1 vp1))).1)
    (dictSet (_prune_reuse_index_entries env fs
      (dictSet [] (_make_reuse_key task1 ih1 pv1 sprof1)
        (rememberEntry env task1 ih1 pv1 sprof1 sp1 vp1))).1
      (_make_reuse_key task2 ih2 pv2 sprof2)
      (rememberEntry env task2 ih2 pv2 sprof2 sp2 vp2))
    (_make_reuse_key task1 ih1 pv1 sprof1)
    (rememberEntry env task1 ih1 pv1 sprof1 sp1 vp1)
    _ (pyStrip_make_reuse_key task1 ih1 pv1 sprof1)
    (make_reuse_key_ne_empty task1 ih1 pv1 sprof1) hrow1c
    ?hmemc ?huniqc ?hcountc ?hlenc
  case hmemc =>
    refine mem_dictSet_of_ne _ _ _ _ hmem1 ?_
    show _make_reuse_key task1 ih1 pv1 sprof1 ≠ _make_reuse_key task2 ih2 pv2 sprof2
    exact hkk
  case huniqc =>
    intro kv hkv hstrip
    rcases mem_dictSet_nodup _ _ _ hnd1 kv hkv with h | ⟨hmem, hne2⟩
    · exfalso
      rw [h] at hstrip
      apply hkk
      refine Eq.symm ?_
      rw [← pyStrip_make_reuse_key task2 ih2 pv2 sprof2]
      exact hstrip
    · exact hall1 kv hmem
  case hcountc =>
    exact le_trans (List.length_filter_le _ _) (le_trans (dictSet_length_le _ _ _)
      (le_trans (Nat.add_le_add_right hlen1 1) (by decide)))
  case hlenc =>
    exact le_trans (dictSet_length_le _ _ _)
      (le_trans (Nat.add_le_add_right hlen1 1) (by decide))
  have hfs1 : (remember_reusable_ok_result_with_stats env fs task1 ih1 pv1 sprof1 sp1 vp1).2 =
      _write_reuse_index env fs (_prune_reuse_index_entries env fs
        (dictSet [] (_make_reuse_key task1 ih1 pv1 sprof1)
          (rememberEntry env task1 ih1 pv1 sprof1 sp1 vp1))).1 := by
    rw [remember_eval env fs task1 ih1 pv1 sprof1 sp1 vp1 hlock, hes]
  have hload1 : (_load_reuse_index (_write_reuse_index env fs (_prune_reuse_index_entries env fs
      (dictSet [] (_make_reuse_key task1 ih1 pv1 sprof1)
        (rememberEntry env task1 ih1 pv1 sprof1 sp1 vp1))).1)).entries =
      (_prune_reuse_index_entries env fs
        (dictSet [] (_make_reuse_key task1 ih1 pv1 sprof1)
          (rememberEntry env task1 ih1 pv1 sprof1 sp1 vp1))).1 := by
    rw [load_write_index]
  have hfs2 : (remember_reusable_ok_result_with_stats env
      (_write_reuse_index env fs (_prune_reuse_index_entries env fs
        (dictSet [] (_make_reuse_key task1 ih1 pv1 sprof1)
          (rememberEntry env task1 ih1 pv1 sprof1 sp1 vp1))).1)
      task2 ih2 pv2 sprof2 sp2 vp2).2 =
      _write_reuse_index env
        (_write_reuse_index env fs (_prune_reuse_index_entries env fs
          (dictSet [] (_make_reuse_key task1 ih1 pv1 sprof1)
            (rememberEntry env task1 ih1 pv1 sprof1 sp1 vp1))).1)
        (_prune_reuse_index_entries env
          (_write_reuse_index env fs (_prune_reuse_index_entries env fs
            (dictSet [] (_make_reuse_key task1 ih1 pv1 sprof1)
              (rememberEntry env task1 ih1 pv1 sprof1 sp1 vp1))).1)
          (dictSet (_prune_reuse_index_entries env fs
            (dictSet [] (_make_reuse_key task1 ih1 pv1 sprof1)
              (rememberEntry env task1 ih1 pv1 sprof1 sp1 vp1))).1
            (_make_reuse_key task2 ih2 pv2 sprof2)
            (rememberEntry env task2 ih2 pv2 sprof2 sp2 vp2))).1 := by
    rw [remember_eval env _ task2 ih2 pv2 sprof2 sp2 vp2 hlock, hload1]
  have hkeep1d : lookupKV (_prune_reuse_index_entries env
      (_write_reuse_index env fs (_prune_reuse_index_entries env fs
        (dictSet [] (_make_reuse_key task1 ih1 pv1 sprof1)
          (rememberEntry env task1 ih1 pv1 sprof1 sp1 vp1))).1)
      (dictSet (_prune_reuse_index_entries env fs
        (dictSet [] (_make_reuse_key task1 ih1 pv1 sprof1)
          (rememberEntry env task1 ih1 pv1 sprof1 sp1 vp1))).1
        (_make_reuse_key task2 ih2 pv2 sprof2)
        (rememberEntry env task2 ih2 pv2 sprof2 sp2 vp2))).1
      (_make_reuse_key task1 ih1 pv1 sprof1) =
      some (rememberEntry env task1 ih1 pv1 sprof1 sp1 vp1) := hkeep1c
  have hkeep2d : lookupKV (_prune_reuse_index_entries env
      (_write_reuse_index env fs (_prune_reuse_index_entries env fs
        (dictSet [] (_make_reuse_key task1 ih1 pv1 sprof1)
          (rememberEntry env task1 ih1 pv1 sprof1 sp1 vp1))).1)
      (dictSet (_prune_reuse_index_entries env fs
        (dictSet [] (_make_reuse_key task1 ih1 pv1 sprof1)
          (rememberEntry env task1 ih1 pv1 sprof1 sp1 vp1))).1
        (_make_reuse_key task2 ih2 pv2 sprof2)
        (rememberEntry env task2 ih2 pv2 sprof2 sp2 vp2))).1
      (_make_reuse_key task2 ih2 pv2 sprof2) =
      some (rememberEntry env task2 ih2 pv2 sprof2 sp2 vp2) := hkeep2
  refine ⟨?_, ?_⟩
  · conv_lhs => rw [hfs1, hfs2, load_write_index]
    exact hkeep1d
  · conv_lhs => rw [hfs1, hfs2, load_write_index]
    exact hkeep2d

/-- The filesystem after a first remember call under the whitespace task id. -/
def c4FsA : FS :=
  (remember_reusable_ok_result_with_stats wEnv wFs " " "h1" "v1" "secure"
    [wDir, "summary.json"] [wDir, "verdict.json"]).2

/-- `c4FsA` after a second remember call under task 7 with a distinct key. -/
def c4FsB : FS :=
  (remember_reusable_ok_result_with_stats wEnv c4FsA "7" "h1" "v1" "secure"
    [wDir, "summary.json"] [wDir, "verdict.json"]).2

/-- C4 counterexample: two sequential remember calls with distinct lookup keys,
whose shared summary and verdict files exist on disk (well within retention and
capacity), do not both survive in the final on-disk index: the first writer
used a whitespace-only task id, so pruning drops its freshly upserted entry and
only the second writer's entry remains. -/
theorem c4_counterexample :
    _make_reuse_key " " "h1" "v1" "secure" ≠ _make_reuse_key "7" "h1" "v1" "secure" ∧
    fsExists wFs [wDir, "summary.json"] = true ∧
    fsExists wFs [wDir, "verdict.json"] = true ∧
    wEnv.lock_ok = true ∧
    (lookupKV (_load_reuse_index c4FsB).entries
      (_make_reuse_key "7" "h1" "v1" "secure")).isSome = true ∧
    lookupKV (_load_reuse_index c4FsB).entries
      (_make_reuse_key " " "h1" "v1" "secure") = none :=
  ⟨by decide, rfl, rfl, rfl, rfl, rfl⟩

/-- Witness for the amended C4 theorem: tasks 7 and 8 both remember the stored
result of `wFs`, and both entries are present in the final index. -/
theorem c4_amended_witness :
    lookupKV (_load_reuse_index
        (remember_reusable_ok_result_with_stats wEnv
          (remember_reusable_ok_result_with_stats wEnv wFs "7" "h1" "v1" "secure"
            [wDir, "summary.json"] [wDir, "verdict.json"]).2
          "8" "h1" "v1" "secure" [wDir, "summary.json"] [wDir, "verdict.json"]).2).entries
      (_make_reuse_key "7" "h1" "v1" "secure") =
      some (rememberEntry wEnv "7" "h1" "v1" "secure" [wDir, "summary.json"]
        [wDir, "verdict.json"]) ∧
    lookupKV (_load_reuse_index
        (remember_reusable_ok_result_with_stats wEnv
          (remember_reusable_ok_result_with_stats wEnv wFs "7" "h1" "v1" "secure"
            [wDir, "summary.json"] [wDir, "verdict.json"]).2
          "8" "h1" "v1" "secure" [wDir, "summary.json"] [wDir, "verdict.json"]).2).entries
      (_make_reuse_key "8" "h1" "v1" "secure") =
      some (rememberEntry wEnv "8" "h1" "v1" "secure" [wDir, "summary.json"]
        [wDir, "verdict.json"]) :=
  c4_concurrent_writers_amended wEnv wFs "7" "h1" "v1" "secure" "8" "h1" "v1" "secure"
    [wDir, "summary.json"] [wDir, "verdict.json"] [wDir, "summary.json"] [wDir, "verdict.json"]
    (by decide) (by decide) (by decide) rfl rfl rfl rfl rfl rfl
    (by decide) (by decide) (by decide) (by decide) rfl rfl rfl rfl
